import Mathlib

/-!
Verification of the PalaPoint V4 scoring core.

This file gives a shallow embedding of the match scoring state machine
(`lib/scoring/engine.ts`, shared with `supabase/functions/_shared/scoring`)
and of the concurrency/undo controller built around it
(`supabase/functions/score/index.ts` and the match-lifecycle `undo` action),
and proves the behavioural properties claimed for them.

Modelling conventions:
* TypeScript `number` counters are embedded as `Nat` (the engine never
  subtracts from a counter; comparisons `x - y >= k` are rendered as
  `y + k ≤ x`, which agrees with integer arithmetic).
* The engine reads the wall clock (`new Date().toISOString()`) when it stamps
  `started_at` / `completed_at`; the clock is passed in as an explicit
  `now : String` argument.
* Optional values (`T | null | undefined`) are embedded as `Option`.
-/

inductive Team
  | a
  | b
deriving DecidableEq, Repr, Fintype

/-- `otherTeam` from `scoring/types.ts`: `team === 'a' ? 'b' : 'a'`. -/
def otherTeam : Team → Team
  | .a => .b
  | .b => .a

/-- The TS call sites `otherTeam(s.serving_team!)` pass a possibly-null value
through the non-null assertion; at runtime `null === 'a'` is false, so a null
serving team yields `'a'`. -/
def otherTeamOfOpt : Option Team → Team
  | some .a => .b
  | _ => .a

inductive GameMode
  | traditional
  | golden_point
  | silver_point
deriving DecidableEq, Repr

inductive MatchStatus
  | setup
  | in_progress
  | completed
  | abandoned
deriving DecidableEq, Repr

/-- One entry of `set_scores`: `{ team_a: number; team_b: number }`. -/
structure SetScore where
  team_a : Nat
  team_b : Nat
deriving DecidableEq, Repr

/-- `tiebreak_scores`: `{ team_a: number; team_b: number }`. -/
structure TbScore where
  team_a : Nat
  team_b : Nat
deriving DecidableEq, Repr

/-- `MatchState` from `scoring/types.ts` (mirrors the `live_matches` row). -/
structure MatchState where
  id : String
  court_id : String
  version : Nat
  game_mode : GameMode
  sets_to_win : Nat
  tiebreak_at : Nat
  status : MatchStatus
  current_set : Nat
  is_tiebreak : Bool
  team_a_points : Nat
  team_b_points : Nat
  team_a_games : Nat
  team_b_games : Nat
  set_scores : List SetScore
  tiebreak_scores : Option TbScore
  tiebreak_starting_server : Option Team
  deuce_count : Nat
  serving_team : Option Team
  team_a_player_1 : Option String
  team_a_player_2 : Option String
  team_b_player_1 : Option String
  team_b_player_2 : Option String
  winner : Option Team
  started_at : Option String
  completed_at : Option String
deriving DecidableEq, Repr

/-- `ScoreEvent`: the `type` field is the constant `'point'`, so only the team
is carried. -/
structure ScoreEvent where
  team : Team
deriving DecidableEq, Repr

inductive Effect
  | point_scored (team : Team)
  | game_won (team : Team)
  | set_won (team : Team)
  | match_won (team : Team)
  | tiebreak_started
  | deuce
  | advantage (team : Team)
  | set_started (set_number : Nat)
deriving DecidableEq, Repr

structure ScoreResult where
  newState : MatchState
  effects : List Effect
deriving DecidableEq, Repr

/-- `checkGameWinner` from `engine.ts`. The `wasAdvantage` argument is passed
by the caller but unused in the body, exactly as in the source. -/
def checkGameWinner (s : MatchState) (wasDeuce : Bool) (_wasAdvantage : Bool)
    (scoringTeam : Team) : Option Team :=
  let pA := s.team_a_points
  let pB := s.team_b_points
  if wasDeuce ∧ s.game_mode = GameMode.golden_point then
    some scoringTeam
  else if wasDeuce ∧ s.game_mode = GameMode.silver_point ∧ 2 ≤ s.deuce_count then
    some scoringTeam
  else if 4 ≤ pA ∧ pB + 2 ≤ pA then some Team.a
  else if 4 ≤ pB ∧ pA + 2 ≤ pB then some Team.b
  else none

/-- `countSetsWon` from `engine.ts`; first component is team a's sets. -/
def countSetsWon (s : MatchState) : Nat × Nat :=
  s.set_scores.foldl
    (fun acc set =>
      if set.team_b < set.team_a then (acc.1 + 1, acc.2)
      else if set.team_a < set.team_b then (acc.1, acc.2 + 1)
      else acc)
    (0, 0)

/-- `checkSetWinner` from `engine.ts`: 6+ games and ahead by 2. -/
def checkSetWinner (s : MatchState) : Option Team :=
  if 6 ≤ s.team_a_games ∧ s.team_b_games + 2 ≤ s.team_a_games then some Team.a
  else if 6 ≤ s.team_b_games ∧ s.team_a_games + 2 ≤ s.team_b_games then some Team.b
  else none

/-- `handleMatchWon` from `engine.ts`. -/
def handleMatchWon (s : MatchState) (winner : Team) (effects : List Effect)
    (now : String) : ScoreResult :=
  { newState :=
      { s with
        status := MatchStatus.completed
        winner := some winner
        completed_at := some now }
    effects := effects ++ [Effect.match_won winner] }

/-- `handleSetWon` from `engine.ts`. -/
def handleSetWon (s : MatchState) (winner : Team) (effects : List Effect)
    (now : String) : ScoreResult :=
  let effects := effects ++ [Effect.set_won winner]
  let s := { s with set_scores := s.set_scores ++ [⟨s.team_a_games, s.team_b_games⟩] }
  let setsWon := countSetsWon s
  let winnerSets := match winner with | .a => setsWon.1 | .b => setsWon.2
  if s.sets_to_win ≤ winnerSets then
    handleMatchWon s winner effects now
  else
    let s :=
      { s with
        current_set := s.current_set + 1
        team_a_games := 0
        team_b_games := 0
        team_a_points := 0
        team_b_points := 0
        is_tiebreak := false
        tiebreak_scores := none
        tiebreak_starting_server := none
        deuce_count := 0 }
    let s := { s with serving_team := some (otherTeamOfOpt s.serving_team) }
    { newState := s
      effects := effects ++ [Effect.set_started s.current_set] }

/-- `handleGameWon` from `engine.ts`. -/
def handleGameWon (s : MatchState) (winner : Team) (effects : List Effect)
    (now : String) : ScoreResult :=
  let effects := effects ++ [Effect.game_won winner]
  let s :=
    match winner with
    | .a => { s with team_a_games := s.team_a_games + 1 }
    | .b => { s with team_b_games := s.team_b_games + 1 }
  let s := { s with team_a_points := 0, team_b_points := 0, deuce_count := 0 }
  if s.team_a_games = s.tiebreak_at ∧ s.team_b_games = s.tiebreak_at then
    if s.is_tiebreak = false then
      let s :=
        { s with
          is_tiebreak := true
          tiebreak_scores := some ⟨0, 0⟩
          tiebreak_starting_server := some (s.serving_team.getD Team.a) }
      { newState := s, effects := effects ++ [Effect.tiebreak_started] }
    else
      { newState := s, effects := effects }
  else
    match checkSetWinner s with
    | some sw => handleSetWon s sw effects now
    | none =>
      { newState := { s with serving_team := some (otherTeamOfOpt s.serving_team) }
        effects := effects }

/-- `updateTiebreakServer` from `engine.ts` (FIP rotation). -/
def updateTiebreakServer (s : MatchState) : MatchState :=
  match s.tiebreak_scores, s.tiebreak_starting_server with
  | some tb, some start =>
    let totalPoints := tb.team_a + tb.team_b
    if totalPoints = 0 then
      { s with serving_team := some start }
    else if totalPoints = 1 then
      { s with serving_team := some (otherTeam start) }
    else if (totalPoints - 1) % 2 = 0 then
      let pairNumber := (totalPoints - 1) / 2
      if pairNumber % 2 = 0 then
        { s with serving_team := some (otherTeam start) }
      else
        { s with serving_team := some start }
    else s
  | _, _ => s

/-- `scoreTiebreakPoint` from `engine.ts`. The TS winner computation assigns
team a's check first and team b's second; the two conditions are mutually
exclusive, so checking b first with `else if` is equivalent to the
last-assignment-wins sequence in the source. -/
def scoreTiebreakPoint (s : MatchState) (team : Team) (effects : List Effect)
    (now : String) : ScoreResult :=
  let tb0 := s.tiebreak_scores.getD ⟨0, 0⟩
  let tb :=
    match team with
    | .a => { tb0 with team_a := tb0.team_a + 1 }
    | .b => { tb0 with team_b := tb0.team_b + 1 }
  let s := { s with tiebreak_scores := some tb }
  let tbA := tb.team_a
  let tbB := tb.team_b
  let tiebreakWinner : Option Team :=
    if 7 ≤ tbB ∧ tbA + 2 ≤ tbB then some Team.b
    else if 7 ≤ tbA ∧ tbB + 2 ≤ tbA then some Team.a
    else none
  match tiebreakWinner with
  | some w =>
    let s :=
      match w with
      | .a => { s with team_a_games := 7 }
      | .b => { s with team_b_games := 7 }
    let s :=
      { s with
        is_tiebreak := false
        tiebreak_scores := none
        tiebreak_starting_server := none }
    handleSetWon s w (effects ++ [Effect.game_won w]) now
  | none =>
    { newState := updateTiebreakServer s, effects := effects }

/-- `scoreGamePoint` from `engine.ts`. -/
def scoreGamePoint (s : MatchState) (team : Team) (effects : List Effect)
    (now : String) : ScoreResult :=
  let teamPoints := match team with | .a => s.team_a_points | .b => s.team_b_points
  let opponentPoints := match team with | .a => s.team_b_points | .b => s.team_a_points
  let wasDeuce : Bool :=
    decide (3 ≤ teamPoints ∧ 3 ≤ opponentPoints ∧ teamPoints = opponentPoints)
  let wasAdvantage : Bool :=
    decide (3 ≤ teamPoints ∧ 3 ≤ opponentPoints ∧ teamPoints ≠ opponentPoints)
  let s :=
    match team with
    | .a => { s with team_a_points := s.team_a_points + 1 }
    | .b => { s with team_b_points := s.team_b_points + 1 }
  match checkGameWinner s wasDeuce wasAdvantage team with
  | some gw => handleGameWon s gw effects now
  | none =>
    let deuceNow :=
      3 ≤ s.team_a_points ∧ 3 ≤ s.team_b_points ∧ s.team_a_points = s.team_b_points
    let sd := if deuceNow then { s with deuce_count := s.deuce_count + 1 } else s
    let effects := if deuceNow then effects ++ [Effect.deuce] else effects
    let advNow :=
      3 ≤ sd.team_a_points ∧ 3 ≤ sd.team_b_points ∧
        (sd.team_a_points = sd.team_b_points + 1 ∨ sd.team_b_points = sd.team_a_points + 1)
    let effects :=
      if advNow then
        effects ++
          [Effect.advantage (if sd.team_b_points < sd.team_a_points then Team.a else Team.b)]
      else effects
    { newState := sd, effects := effects }

/-- `applyScore` from `engine.ts`. The JSON round-trip clone in the source
only establishes value semantics, which the embedding has natively. -/
def applyScore (state : MatchState) (event : ScoreEvent) (now : String) : ScoreResult :=
  let s := state
  if s.status = MatchStatus.completed ∨ s.status = MatchStatus.abandoned then
    { newState := s, effects := [] }
  else
    let s :=
      if s.status = MatchStatus.setup then
        { s with status := MatchStatus.in_progress, started_at := some now }
      else s
    let team := event.team
    let effects : List Effect := [Effect.point_scored team]
    if s.is_tiebreak then
      scoreTiebreakPoint s team effects now
    else
      scoreGamePoint s team effects now

/-- Configuration record accepted by `createMatchState`. -/
structure MatchConfig where
  id : String
  court_id : String
  game_mode : Option GameMode
  sets_to_win : Option Nat
  tiebreak_at : Option Nat
  serving_team : Option Team
  team_a_player_1 : Option String
  team_a_player_2 : Option String
  team_b_player_1 : Option String
  team_b_player_2 : Option String
deriving Repr

/-- TS `x || null` on an optional string: the empty string is falsy and
collapses to null. -/
def normName : Option String → Option String
  | some s => if s = "" then none else some s
  | none => none

/-- `createMatchState` from `engine.ts`. The `Math.random() > 0.5 ? 'a' : 'b'`
fallback server is injected as the explicit `randomServer` argument. -/
def createMatchState (config : MatchConfig) (randomServer : Team) : MatchState :=
  { id := config.id
    court_id := config.court_id
    version := 1
    game_mode := config.game_mode.getD GameMode.golden_point
    sets_to_win := config.sets_to_win.getD 1
    tiebreak_at := config.tiebreak_at.getD 6
    status := MatchStatus.setup
    current_set := 1
    is_tiebreak := false
    team_a_points := 0
    team_b_points := 0
    team_a_games := 0
    team_b_games := 0
    set_scores := []
    tiebreak_scores := none
    tiebreak_starting_server := none
    deuce_count := 0
    serving_team := some (config.serving_team.getD randomServer)
    team_a_player_1 := normName config.team_a_player_1
    team_a_player_2 := normName config.team_a_player_2
    team_b_player_1 := normName config.team_b_player_1
    team_b_player_2 := normName config.team_b_player_2
    winner := none
    started_at := none
    completed_at := none }

/-- `getTeamPoints` from `scoring/types.ts`. -/
def getTeamPoints (s : MatchState) : Team → Nat
  | .a => s.team_a_points
  | .b => s.team_b_points

/-- `getTeamGames` from `scoring/types.ts`. -/
def getTeamGames (s : MatchState) : Team → Nat
  | .a => s.team_a_games
  | .b => s.team_b_games

/-- Tiebreak pair oriented from one team's point of view. -/
def tbPair (x : Team) (own opp : Nat) : TbScore :=
  match x with
  | .a => ⟨own, opp⟩
  | .b => ⟨opp, own⟩

/-- Completed-set record oriented from one team's point of view. -/
def setPair (x : Team) (own opp : Nat) : SetScore :=
  match x with
  | .a => ⟨own, opp⟩
  | .b => ⟨opp, own⟩

/-- Sets won by a given team, read off `countSetsWon`. -/
def setsWonOf (s : MatchState) : Team → Nat
  | .a => (countSetsWon s).1
  | .b => (countSetsWon s).2

/-- Number of `set_won` tags in an effect list. -/
def setWonCount (l : List Effect) : Nat :=
  l.countP fun e => match e with | .set_won _ => true | _ => false

/-- A match state with the engine-stamped timestamps blanked; two runs of the
engine at different clock readings agree up to this projection. -/
def eraseTimes (s : MatchState) : MatchState :=
  { s with started_at := none, completed_at := none }

/-! ### The concurrency controller and undo log

`supabase/functions/score/index.ts` (the `click` path) and the `undo` action
of the match lifecycle function, modelled over the per-court persistent state:
the `live_matches` row and the match's `score_events` collection (held most
recent first, i.e. ordered by creation time descending). -/

/-- A persisted `score_events` row (the fields the controller reads back). -/
structure ScoreEventRow where
  event_id : Option String
  state_before : MatchState
deriving DecidableEq, Repr

/-- Per-court persistent state. -/
structure Store where
  live : Option MatchState
  events : List ScoreEventRow
deriving DecidableEq, Repr

/-- Status filter used by every match lookup: `in ('setup','in_progress')`. -/
def isActive (s : MatchState) : Bool :=
  s.status = MatchStatus.setup ∨ s.status = MatchStatus.in_progress

/-- `getActiveMatch`: the court's live row filtered to active statuses. -/
def getActiveMatch (store : Store) : Option MatchState :=
  match store.live with
  | some m => if isActive m then some m else none
  | none => none

/-- `dbRowToMatchState` / `matchStateToDbRow`: with rows and states sharing
one record shape, both conversions reduce to the `x || null` coercions they
apply to optional string fields. -/
def normState (s : MatchState) : MatchState :=
  { s with
    team_a_player_1 := normName s.team_a_player_1
    team_a_player_2 := normName s.team_a_player_2
    team_b_player_1 := normName s.team_b_player_1
    team_b_player_2 := normName s.team_b_player_2
    started_at := normName s.started_at
    completed_at := normName s.completed_at }

inductive ScoreError
  | no_active_match
  | version_conflict
deriving DecidableEq, Repr

structure ScoreResponse where
  new_state : MatchState
  effects : List Effect
  idempotent : Bool
deriving DecidableEq, Repr

/-- The `updateData` write of the score function: only the mutable scoring
fields are updated, with `version := newState.version + 1`; identity,
configuration and player-name columns keep the row's values. -/
def mergeRow (row ns : MatchState) : MatchState :=
  { row with
    version := ns.version + 1
    status := ns.status
    current_set := ns.current_set
    is_tiebreak := ns.is_tiebreak
    team_a_points := ns.team_a_points
    team_b_points := ns.team_b_points
    team_a_games := ns.team_a_games
    team_b_games := ns.team_b_games
    set_scores := ns.set_scores
    deuce_count := ns.deuce_count
    serving_team := ns.serving_team
    winner := ns.winner
    started_at := ns.started_at
    completed_at := ns.completed_at
    tiebreak_scores := ns.tiebreak_scores
    tiebreak_starting_server := ns.tiebreak_starting_server }

/-- The `click` path of the score edge function on a single-writer store: look
up the active match; if the idempotency key is truthy (`if (event_id)` — the
empty string is falsy in JS and skips the check) and was already recorded,
return the current row unchanged with empty effects and the idempotent flag;
otherwise read the row into a `MatchState`, run the engine, write the merged
row under the version guard (which always passes single-writer, so the
`version_conflict` branch is not exercised), and append the pre-event snapshot
to `score_events` with `event_id: event_id || null`. -/
def scoreAction (store : Store) (team : Team) (event_id : Option String)
    (now : String) : Except ScoreError ScoreResponse × Store :=
  match getActiveMatch store with
  | none => (.error ScoreError.no_active_match, store)
  | some row =>
    let dup :=
      match event_id with
      | some k =>
        if k = "" then false
        else store.events.any (fun e => e.event_id = some k)
      | none => false
    if dup then
      (.ok { new_state := row, effects := [], idempotent := true }, store)
    else
      let stateBefore := normState row
      let result := applyScore stateBefore { team := team } now
      let newRow := mergeRow row result.newState
      (.ok { new_state := newRow, effects := result.effects, idempotent := false },
        { live := some newRow
          events := { event_id := normName event_id
                      state_before := stateBefore } :: store.events })

inductive UndoError
  | no_active_match
  | nothing_to_undo
deriving DecidableEq, Repr

/-- The `undo` action of the match lifecycle function: find the active match;
fetch its most recent score event; if none, fail with `nothing_to_undo`;
otherwise overwrite the live row with `matchStateToDbRow(state_before)` and
delete the consumed event. An error return performs no writes. -/
def undoAction (store : Store) : Except UndoError Store :=
  match getActiveMatch store with
  | none => .error UndoError.no_active_match
  | some _ =>
    match store.events with
    | [] => .error UndoError.nothing_to_undo
    | e :: rest => .ok { live := some (normState e.state_before), events := rest }

/-- Run a sequence of point requests (no idempotency keys) through the score
function. -/
def applyPoints (store : Store) (evs : List Team) (now : String) : Store :=
  evs.foldl (fun st t => (scoreAction st t none now).2) store

/-- Every request of the run found an active match, i.e. was accepted and
logged. -/
def acceptedRun (store : Store) (evs : List Team) (now : String) : Bool :=
  match evs with
  | [] => true
  | t :: ts =>
    (getActiveMatch store).isSome && acceptedRun (scoreAction store t none now).2 ts now

/-- One undo call; a failed call leaves the store as it was. -/
def undoStep (store : Store) : Store :=
  match undoAction store with
  | .ok st => st
  | .error _ => store

/-- `n` successive undo calls. -/
def undoTimes (store : Store) : Nat → Store
  | 0 => store
  | n + 1 => undoStep (undoTimes store n)

/-- Whether the store's live row exists and is active. -/
def storeActive (store : Store) : Bool :=
  (getActiveMatch store).isSome

/-- States reachable from `createMatchState` by repeated `applyScore`. -/
inductive Reachable : MatchState → Prop
  | init (config : MatchConfig) (randomServer : Team) :
      Reachable (createMatchState config randomServer)
  | step (s : MatchState) (e : ScoreEvent) (now : String) :
      Reachable s → Reachable (applyScore s e now).newState

/-! ### Concrete states used by witnesses and counterexamples -/

/-- A plain in-progress match state used as a template for concrete
instantiations. -/
def baseState : MatchState :=
  { id := "m1"
    court_id := "c1"
    version := 1
    game_mode := GameMode.golden_point
    sets_to_win := 1
    tiebreak_at := 6
    status := MatchStatus.in_progress
    current_set := 1
    is_tiebreak := false
    team_a_points := 0
    team_b_points := 0
    team_a_games := 0
    team_b_games := 0
    set_scores := []
    tiebreak_scores := none
    tiebreak_starting_server := none
    deuce_count := 0
    serving_team := some Team.a
    team_a_player_1 := none
    team_a_player_2 := none
    team_b_player_1 := none
    team_b_player_2 := none
    winner := none
    started_at := some "t0"
    completed_at := none }

/-! ### C2 -/

/-- C2: for every match state whose status is `completed` or `abandoned` and
for every score event, `applyScore` returns the input state unchanged (every
field) together with an empty effects list. -/
theorem applyScore_terminal_noop (s : MatchState) (e : ScoreEvent) (now : String)
    (h : s.status = MatchStatus.completed ∨ s.status = MatchStatus.abandoned) :
    applyScore s e now = { newState := s, effects := [] } := by
  unfold applyScore
  simp [h]

/-- Witness for C2 at a concrete completed state. -/
theorem applyScore_terminal_noop_witness :
    ({ baseState with status := MatchStatus.completed, winner := some Team.a }.status =
        MatchStatus.completed ∨
      { baseState with status := MatchStatus.completed, winner := some Team.a }.status =
        MatchStatus.abandoned) ∧
    applyScore { baseState with status := MatchStatus.completed, winner := some Team.a }
        ⟨Team.b⟩ "2024-01-01" =
      { newState := { baseState with status := MatchStatus.completed, winner := some Team.a }
        effects := [] } :=
  ⟨Or.inl rfl,
    applyScore_terminal_noop
      { baseState with status := MatchStatus.completed, winner := some Team.a }
      ⟨Team.b⟩ "2024-01-01" (Or.inl rfl)⟩

/-! ### C4 -/

/-- Golden point at deuce with games 5–3 in a best-of-three match: the game
win completes the set. -/
def goldenDeuceSetEnd : MatchState :=
  { baseState with
    game_mode := GameMode.golden_point
    sets_to_win := 2
    team_a_points := 3
    team_b_points := 3
    team_a_games := 5
    team_b_games := 3
    deuce_count := 1 }

/-- C4 counterexample: under golden point, from deuce at games 5–3 in a
best-of-three match, the next point wins game and set, and the returned
state's game counters are reset to 0–0 for the new set — the scorer's game
counter does not increase by one as the claim states. -/
theorem golden_point_claim_cex :
    goldenDeuceSetEnd.team_a_games = 5 ∧
    (applyScore goldenDeuceSetEnd ⟨Team.a⟩ "T").newState.team_a_games = 0 ∧
    (applyScore goldenDeuceSetEnd ⟨Team.a⟩ "T").newState.set_scores = [⟨6, 3⟩] := by
  decide

/-- Mid-set golden-point deuce state used to witness the amended C4. -/
def goldenDeuceMidSet : MatchState :=
  { baseState with
    team_a_points := 3
    team_b_points := 3
    team_a_games := 2
    team_b_games := 1
    deuce_count := 1 }

/-! ### Helper lemmas: the handlers only append to the effect list -/

theorem handleMatchWon_effects_extend (s : MatchState) (w : Team)
    (fx : List Effect) (now : String) :
    ∃ t, (handleMatchWon s w fx now).effects = fx ++ t :=
  ⟨[Effect.match_won w], rfl⟩

theorem handleSetWon_effects_extend (s : MatchState) (w : Team)
    (fx : List Effect) (now : String) :
    ∃ t, (handleSetWon s w fx now).effects = fx ++ t := by
  simp only [handleSetWon]
  split
  · exact ⟨[Effect.set_won w, Effect.match_won w], by simp [handleMatchWon]⟩
  · exact ⟨[Effect.set_won w, Effect.set_started (s.current_set + 1)], by simp⟩

theorem handleGameWon_effects_extend (s : MatchState) (w : Team)
    (fx : List Effect) (now : String) :
    ∃ t, (handleGameWon s w fx now).effects = fx ++ t := by
  cases w
  case a =>
    simp only [handleGameWon]
    split
    · split
      · exact ⟨[Effect.game_won Team.a, Effect.tiebreak_started], by simp⟩
      · exact ⟨[Effect.game_won Team.a], by simp⟩
    · split
      · rename_i sw _
        obtain ⟨t, ht⟩ :=
          handleSetWon_effects_extend _ sw (fx ++ [Effect.game_won Team.a]) now
        exact ⟨[Effect.game_won Team.a] ++ t, by rw [ht, List.append_assoc]⟩
      · exact ⟨[Effect.game_won Team.a], by simp⟩
  case b =>
    simp only [handleGameWon]
    split
    · split
      · exact ⟨[Effect.game_won Team.b, Effect.tiebreak_started], by simp⟩
      · exact ⟨[Effect.game_won Team.b], by simp⟩
    · split
      · rename_i sw _
        obtain ⟨t, ht⟩ :=
          handleSetWon_effects_extend _ sw (fx ++ [Effect.game_won Team.b]) now
        exact ⟨[Effect.game_won Team.b] ++ t, by rw [ht, List.append_assoc]⟩
      · exact ⟨[Effect.game_won Team.b], by simp⟩

/-! ### Helper lemmas: point counters after a game win -/

theorem handleSetWon_points_zero (s : MatchState) (w : Team)
    (fx : List Effect) (now : String)
    (ha : s.team_a_points = 0) (hb : s.team_b_points = 0) :
    (handleSetWon s w fx now).newState.team_a_points = 0 ∧
    (handleSetWon s w fx now).newState.team_b_points = 0 := by
  simp only [handleSetWon]
  split
  · simp [handleMatchWon, ha, hb]
  · simp

theorem handleGameWon_points_zero (s : MatchState) (w : Team)
    (fx : List Effect) (now : String) :
    (handleGameWon s w fx now).newState.team_a_points = 0 ∧
    (handleGameWon s w fx now).newState.team_b_points = 0 := by
  cases w <;>
    (simp only [handleGameWon]
     split
     · split <;> simp
     · split
       · exact handleSetWon_points_zero _ _ _ _ rfl rfl
       · simp)

theorem handleGameWon_game_won_mem (s : MatchState) (w : Team)
    (fx : List Effect) (now : String) :
    Effect.game_won w ∈ (handleGameWon s w fx now).effects := by
  cases w
  case a =>
    simp only [handleGameWon]
    split
    · split <;> simp
    · split
      · rename_i sw _
        obtain ⟨t, ht⟩ :=
          handleSetWon_effects_extend _ sw (fx ++ [Effect.game_won Team.a]) now
        rw [ht]
        simp
      · simp
  case b =>
    simp only [handleGameWon]
    split
    · split <;> simp
    · split
      · rename_i sw _
        obtain ⟨t, ht⟩ :=
          handleSetWon_effects_extend _ sw (fx ++ [Effect.game_won Team.b]) now
        rw [ht]
        simp
      · simp

/-! ### Helper lemmas: reducing `applyScore` on live states -/

theorem applyScore_game_reduce (s : MatchState) (e : ScoreEvent) (now : String)
    (hterm : ¬(s.status = MatchStatus.completed ∨ s.status = MatchStatus.abandoned))
    (htb : s.is_tiebreak = false) :
    applyScore s e now =
      scoreGamePoint
        (if s.status = MatchStatus.setup then
          { s with status := MatchStatus.in_progress, started_at := some now }
        else s)
        e.team [Effect.point_scored e.team] now := by
  unfold applyScore
  rw [if_neg hterm]
  by_cases hs : s.status = MatchStatus.setup <;> simp [hs, htb]

theorem applyScore_tiebreak_reduce (s : MatchState) (e : ScoreEvent) (now : String)
    (hterm : ¬(s.status = MatchStatus.completed ∨ s.status = MatchStatus.abandoned))
    (htb : s.is_tiebreak = true) :
    applyScore s e now =
      scoreTiebreakPoint
        (if s.status = MatchStatus.setup then
          { s with status := MatchStatus.in_progress, started_at := some now }
        else s)
        e.team [Effect.point_scored e.team] now := by
  unfold applyScore
  rw [if_neg hterm]
  by_cases hs : s.status = MatchStatus.setup <;> simp [hs, htb]

theorem handleSetWon_deuce_zero (s : MatchState) (w : Team) (fx : List Effect)
    (now : String) (h : s.deuce_count = 0) :
    (handleSetWon s w fx now).newState.deuce_count = 0 := by
  simp only [handleSetWon]
  split
  · simpa [handleMatchWon] using h
  · rfl

theorem handleGameWon_deuce_zero (s : MatchState) (w : Team) (fx : List Effect)
    (now : String) : (handleGameWon s w fx now).newState.deuce_count = 0 := by
  cases w <;>
    (simp only [handleGameWon]
     split
     · split <;> rfl
     · split
       · exact handleSetWon_deuce_zero _ _ _ _ rfl
       · rfl)

/-- When the incremented game counts meet no set-win condition, a game win
increments exactly the winner's game counter. -/
theorem handleGameWon_games (s : MatchState) (w : Team) (fx : List Effect)
    (now : String)
    (hx : ¬(6 ≤ getTeamGames s w + 1 ∧
      getTeamGames s (otherTeam w) + 2 ≤ getTeamGames s w + 1))
    (ho : ¬(6 ≤ getTeamGames s (otherTeam w) ∧
      getTeamGames s w + 3 ≤ getTeamGames s (otherTeam w))) :
    getTeamGames (handleGameWon s w fx now).newState w = getTeamGames s w + 1 ∧
    getTeamGames (handleGameWon s w fx now).newState (otherTeam w) =
      getTeamGames s (otherTeam w) := by
  cases w
  case a =>
    simp only [getTeamGames, otherTeam] at hx ho ⊢
    simp only [handleGameWon]
    split
    · split
      · exact ⟨rfl, rfl⟩
      · exact ⟨rfl, rfl⟩
    · split
      · rename_i sw heq
        exfalso
        simp only [checkSetWinner] at heq
        split_ifs at heq with h1 h2
        all_goals first
          | exact hx h1
          | exact ho h1
          | exact hx h2
          | exact ho h2
      · exact ⟨rfl, rfl⟩
  case b =>
    simp only [getTeamGames, otherTeam] at hx ho ⊢
    simp only [handleGameWon]
    split
    · split
      · exact ⟨rfl, rfl⟩
      · exact ⟨rfl, rfl⟩
    · split
      · rename_i sw heq
        exfalso
        simp only [checkSetWinner] at heq
        split_ifs at heq with h1 h2
        all_goals first
          | exact hx h1
          | exact ho h1
          | exact hx h2
          | exact ho h2
      · exact ⟨rfl, rfl⟩

/-- One golden-point deuce step at the `scoreGamePoint` level: the scorer wins
the game, points and deuce counter reset, `game_won` is emitted, and —
whenever no set-win condition is met by the incremented games — only the
scorer's game counter grows. -/
theorem scoreGamePoint_golden_deuce (s : MatchState) (x : Team) (fx : List Effect)
    (now : String)
    (hmode : s.game_mode = GameMode.golden_point)
    (hd3 : 3 ≤ s.team_a_points)
    (hdeq : s.team_a_points = s.team_b_points) :
    (scoreGamePoint s x fx now).newState.team_a_points = 0 ∧
    (scoreGamePoint s x fx now).newState.team_b_points = 0 ∧
    (scoreGamePoint s x fx now).newState.deuce_count = 0 ∧
    Effect.game_won x ∈ (scoreGamePoint s x fx now).effects ∧
    (¬(6 ≤ getTeamGames s x + 1 ∧
        getTeamGames s (otherTeam x) + 2 ≤ getTeamGames s x + 1) →
     ¬(6 ≤ getTeamGames s (otherTeam x) ∧
        getTeamGames s x + 3 ≤ getTeamGames s (otherTeam x)) →
      getTeamGames (scoreGamePoint s x fx now).newState x = getTeamGames s x + 1 ∧
      getTeamGames (scoreGamePoint s x fx now).newState (otherTeam x) =
        getTeamGames s (otherTeam x)) := by
  have hb3 : 3 ≤ s.team_b_points := hdeq ▸ hd3
  cases x
  case a =>
    simp only [scoreGamePoint]
    split
    case _ gw heq =>
      simp only [checkGameWinner] at heq
      split_ifs at heq with h1 h2 h3 h4
      · injection heq with heq'
        subst heq'
        refine ⟨(handleGameWon_points_zero _ _ _ _).1,
          (handleGameWon_points_zero _ _ _ _).2,
          handleGameWon_deuce_zero _ _ _ _,
          handleGameWon_game_won_mem _ _ _ _, ?_⟩
        intro hx ho
        exact handleGameWon_games _ Team.a fx now hx ho
      · exfalso
        have h' : s.game_mode = GameMode.silver_point := h2.2.1
        rw [hmode] at h'
        cases h'
      · exfalso
        have h3' : 4 ≤ s.team_a_points + 1 ∧
          s.team_b_points + 2 ≤ s.team_a_points + 1 := h3
        omega
      · exfalso
        have h4' : 4 ≤ s.team_b_points ∧
          s.team_a_points + 1 + 2 ≤ s.team_b_points := h4
        omega
    case _ heq =>
      exfalso
      simp only [checkGameWinner] at heq
      split_ifs at heq with h1 h2 h3 h4
      exact h1 ⟨by simp only [decide_eq_true_eq]; exact ⟨hd3, hb3, hdeq⟩, hmode⟩
  case b =>
    simp only [scoreGamePoint]
    split
    case _ gw heq =>
      simp only [checkGameWinner] at heq
      split_ifs at heq with h1 h2 h3 h4
      · injection heq with heq'
        subst heq'
        refine ⟨(handleGameWon_points_zero _ _ _ _).1,
          (handleGameWon_points_zero _ _ _ _).2,
          handleGameWon_deuce_zero _ _ _ _,
          handleGameWon_game_won_mem _ _ _ _, ?_⟩
        intro hx ho
        exact handleGameWon_games _ Team.b fx now hx ho
      · exfalso
        have h' : s.game_mode = GameMode.silver_point := h2.2.1
        rw [hmode] at h'
        cases h'
      · exfalso
        have h3' : 4 ≤ s.team_a_points ∧
          s.team_b_points + 1 + 2 ≤ s.team_a_points := h3
        omega
      · exfalso
        have h4' : 4 ≤ s.team_b_points + 1 ∧
          s.team_a_points + 2 ≤ s.team_b_points + 1 := h4
        omega
    case _ heq =>
      exfalso
      simp only [checkGameWinner] at heq
      split_ifs at heq with h1 h2 h3 h4
      exact h1 ⟨by simp only [decide_eq_true_eq]; exact ⟨hb3, hd3, hdeq.symm⟩, hmode⟩

/-- C4 (amended): under golden point, from every non-terminal, non-tiebreak
state at deuce (both point counters ≥ 3 and equal), the next point scored by
team X wins the game immediately: both point counters and the deuce counter
are reset to 0 and `game_won` is emitted; and whenever the resulting game
counts do not meet the set-win condition for either team, X's game counter
increases by exactly one and the opponent's game counter is unchanged. (When
the game win completes the set in a not-yet-decided match, both game counters
are reset to 0 for the new set instead.) -/
theorem golden_point_deuce_wins_game (s : MatchState) (x : Team) (now : String)
    (hterm : ¬(s.status = MatchStatus.completed ∨ s.status = MatchStatus.abandoned))
    (htb : s.is_tiebreak = false)
    (hmode : s.game_mode = GameMode.golden_point)
    (hd3 : 3 ≤ s.team_a_points)
    (hdeq : s.team_a_points = s.team_b_points) :
    (applyScore s ⟨x⟩ now).newState.team_a_points = 0 ∧
    (applyScore s ⟨x⟩ now).newState.team_b_points = 0 ∧
    (applyScore s ⟨x⟩ now).newState.deuce_count = 0 ∧
    Effect.game_won x ∈ (applyScore s ⟨x⟩ now).effects ∧
    (¬(6 ≤ getTeamGames s x + 1 ∧
        getTeamGames s (otherTeam x) + 2 ≤ getTeamGames s x + 1) →
     ¬(6 ≤ getTeamGames s (otherTeam x) ∧
        getTeamGames s x + 3 ≤ getTeamGames s (otherTeam x)) →
      getTeamGames (applyScore s ⟨x⟩ now).newState x = getTeamGames s x + 1 ∧
      getTeamGames (applyScore s ⟨x⟩ now).newState (otherTeam x) =
        getTeamGames s (otherTeam x)) := by
  rw [applyScore_game_reduce s ⟨x⟩ now hterm htb]
  split
  · exact scoreGamePoint_golden_deuce _ x _ now hmode hd3 hdeq
  · exact scoreGamePoint_golden_deuce _ x _ now hmode hd3 hdeq

/-- Witness for C4 (amended) at a concrete mid-set deuce, where the no-set-win
proviso holds and the game counter visibly increments. -/
theorem golden_point_deuce_wins_game_witness :
    ((applyScore goldenDeuceMidSet ⟨Team.a⟩ "T").newState.team_a_points = 0 ∧
     (applyScore goldenDeuceMidSet ⟨Team.a⟩ "T").newState.team_b_points = 0 ∧
     (applyScore goldenDeuceMidSet ⟨Team.a⟩ "T").newState.deuce_count = 0 ∧
     Effect.game_won Team.a ∈ (applyScore goldenDeuceMidSet ⟨Team.a⟩ "T").effects ∧
     (¬(6 ≤ getTeamGames goldenDeuceMidSet Team.a + 1 ∧
         getTeamGames goldenDeuceMidSet (otherTeam Team.a) + 2 ≤
           getTeamGames goldenDeuceMidSet Team.a + 1) →
      ¬(6 ≤ getTeamGames goldenDeuceMidSet (otherTeam Team.a) ∧
         getTeamGames goldenDeuceMidSet Team.a + 3 ≤
           getTeamGames goldenDeuceMidSet (otherTeam Team.a)) →
       getTeamGames (applyScore goldenDeuceMidSet ⟨Team.a⟩ "T").newState Team.a =
         getTeamGames goldenDeuceMidSet Team.a + 1 ∧
       getTeamGames (applyScore goldenDeuceMidSet ⟨Team.a⟩ "T").newState
           (otherTeam Team.a) = getTeamGames goldenDeuceMidSet (otherTeam Team.a))) ∧
    getTeamGames (applyScore goldenDeuceMidSet ⟨Team.a⟩ "T").newState Team.a =
      getTeamGames goldenDeuceMidSet Team.a + 1 :=
  ⟨golden_point_deuce_wins_game goldenDeuceMidSet Team.a "T" (by decide) rfl rfl
      (by decide) rfl,
   ((golden_point_deuce_wins_game goldenDeuceMidSet Team.a "T" (by decide) rfl rfl
      (by decide) rfl).2.2.2.2 (by decide) (by decide)).1⟩

/-- `checkGameWinner` returns no winner under silver point before the second
deuce when neither standard win condition holds. -/
theorem checkGameWinner_none_silver_first (s : MatchState) (wd wa : Bool) (x : Team)
    (hmode : s.game_mode = GameMode.silver_point)
    (hdc : s.deuce_count < 2)
    (hsa : ¬(4 ≤ s.team_a_points ∧ s.team_b_points + 2 ≤ s.team_a_points))
    (hsb : ¬(4 ≤ s.team_b_points ∧ s.team_a_points + 2 ≤ s.team_b_points)) :
    checkGameWinner s wd wa x = none := by
  simp only [checkGameWinner]
  split_ifs <;> simp_all <;> omega

theorem silver_first_deuce_aux (s : MatchState) (x : Team) (now : String)
    (hterm : ¬(s.status = MatchStatus.completed ∨ s.status = MatchStatus.abandoned))
    (htb : s.is_tiebreak = false)
    (hmode : s.game_mode = GameMode.silver_point)
    (hd3 : 3 ≤ s.team_a_points)
    (hdeq : s.team_a_points = s.team_b_points)
    (hdc : s.deuce_count < 2) :
    (applyScore s ⟨x⟩ now).effects = [Effect.point_scored x, Effect.advantage x] ∧
    (applyScore s ⟨x⟩ now).newState.team_a_games = s.team_a_games ∧
    (applyScore s ⟨x⟩ now).newState.team_b_games = s.team_b_games ∧
    getTeamPoints (applyScore s ⟨x⟩ now).newState x = getTeamPoints s x + 1 ∧
    getTeamPoints (applyScore s ⟨x⟩ now).newState (otherTeam x) =
      getTeamPoints s (otherTeam x) := by
  have hb3 : 3 ≤ s.team_b_points := hdeq ▸ hd3
  rw [applyScore_game_reduce s ⟨x⟩ now hterm htb]
  cases x <;>
    (split <;>
      (simp only [scoreGamePoint]
       split
       · rename_i gw heq
         simp only [checkGameWinner] at heq
         split_ifs at heq <;> simp_all <;> omega
       · split_ifs <;> simp_all [getTeamPoints, otherTeam] <;> omega))

theorem silver_second_deuce_aux (s : MatchState) (x : Team) (now : String)
    (hterm : ¬(s.status = MatchStatus.completed ∨ s.status = MatchStatus.abandoned))
    (htb : s.is_tiebreak = false)
    (hmode : s.game_mode = GameMode.silver_point)
    (hd3 : 3 ≤ s.team_a_points)
    (hdeq : s.team_a_points = s.team_b_points)
    (hdc : 2 ≤ s.deuce_count) :
    Effect.game_won x ∈ (applyScore s ⟨x⟩ now).effects ∧
    (applyScore s ⟨x⟩ now).newState.team_a_points = 0 ∧
    (applyScore s ⟨x⟩ now).newState.team_b_points = 0 := by
  have hb3 : 3 ≤ s.team_b_points := hdeq ▸ hd3
  rw [applyScore_game_reduce s ⟨x⟩ now hterm htb]
  cases x
  case a =>
    split <;>
      (simp only [scoreGamePoint]
       split
       · rename_i gw heq
         have hgw : (some gw : Option Team) = some Team.a := by
           rw [← heq]
           simp only [checkGameWinner]
           rw [if_neg (by simp [hmode])]
           rw [if_pos ⟨by simp; omega, hmode, hdc⟩]
         injection hgw with h
         subst h
         exact ⟨handleGameWon_game_won_mem _ _ _ _,
           (handleGameWon_points_zero _ _ _ _).1,
           (handleGameWon_points_zero _ _ _ _).2⟩
       · rename_i heq
         exfalso
         simp only [checkGameWinner] at heq
         rw [if_neg (by simp [hmode])] at heq
         rw [if_pos ⟨by simp; omega, hmode, hdc⟩] at heq
         exact Option.noConfusion heq)
  case b =>
    split <;>
      (simp only [scoreGamePoint]
       split
       · rename_i gw heq
         have hgw : (some gw : Option Team) = some Team.b := by
           rw [← heq]
           simp only [checkGameWinner]
           rw [if_neg (by simp [hmode])]
           rw [if_pos ⟨by simp; omega, hmode, hdc⟩]
         injection hgw with h
         subst h
         exact ⟨handleGameWon_game_won_mem _ _ _ _,
           (handleGameWon_points_zero _ _ _ _).1,
           (handleGameWon_points_zero _ _ _ _).2⟩
       · rename_i heq
         exfalso
         simp only [checkGameWinner] at heq
         rw [if_neg (by simp [hmode])] at heq
         rw [if_pos ⟨by simp; omega, hmode, hdc⟩] at heq
         exact Option.noConfusion heq)

/-! ### C5 -/

/-- C5: under silver point, from a deuce (both point counters ≥ 3 and equal)
in a live normal game: while the running deuce counter is below 2 the next
point does not win the game and only yields advantage for the scoring team
(effects are exactly `point_scored` then `advantage`, game counters
unchanged, only the scorer's point counter incremented); once the deuce
counter is already ≥ 2 the next point wins the game immediately (`game_won`
emitted, both point counters reset to 0). -/
theorem silver_point_deuce_behavior (s : MatchState) (x : Team) (now : String)
    (hterm : ¬(s.status = MatchStatus.completed ∨ s.status = MatchStatus.abandoned))
    (htb : s.is_tiebreak = false)
    (hmode : s.game_mode = GameMode.silver_point)
    (hd3 : 3 ≤ s.team_a_points)
    (hdeq : s.team_a_points = s.team_b_points) :
    (s.deuce_count < 2 →
      (applyScore s ⟨x⟩ now).effects = [Effect.point_scored x, Effect.advantage x] ∧
      (applyScore s ⟨x⟩ now).newState.team_a_games = s.team_a_games ∧
      (applyScore s ⟨x⟩ now).newState.team_b_games = s.team_b_games ∧
      getTeamPoints (applyScore s ⟨x⟩ now).newState x = getTeamPoints s x + 1 ∧
      getTeamPoints (applyScore s ⟨x⟩ now).newState (otherTeam x) =
        getTeamPoints s (otherTeam x)) ∧
    (2 ≤ s.deuce_count →
      Effect.game_won x ∈ (applyScore s ⟨x⟩ now).effects ∧
      (applyScore s ⟨x⟩ now).newState.team_a_points = 0 ∧
      (applyScore s ⟨x⟩ now).newState.team_b_points = 0) :=
  ⟨fun hdc => silver_first_deuce_aux s x now hterm htb hmode hd3 hdeq hdc,
    fun hdc => silver_second_deuce_aux s x now hterm htb hmode hd3 hdeq hdc⟩

/-- First-deuce silver-point state (deuce counter 1). -/
def silverFirstDeuce : MatchState :=
  { baseState with
    game_mode := GameMode.silver_point
    team_a_points := 3
    team_b_points := 3
    deuce_count := 1 }

/-- Second-deuce silver-point state (deuce counter 2). -/
def silverSecondDeuce : MatchState :=
  { baseState with
    game_mode := GameMode.silver_point
    team_a_points := 4
    team_b_points := 4
    deuce_count := 2 }

/-- Witness for C5 at concrete first- and second-deuce states. -/
theorem silver_point_deuce_behavior_witness :
    ((applyScore silverFirstDeuce ⟨Team.a⟩ "T").effects =
        [Effect.point_scored Team.a, Effect.advantage Team.a] ∧
      (applyScore silverFirstDeuce ⟨Team.a⟩ "T").newState.team_a_games =
        silverFirstDeuce.team_a_games ∧
      (applyScore silverFirstDeuce ⟨Team.a⟩ "T").newState.team_b_games =
        silverFirstDeuce.team_b_games ∧
      getTeamPoints (applyScore silverFirstDeuce ⟨Team.a⟩ "T").newState Team.a =
        getTeamPoints silverFirstDeuce Team.a + 1 ∧
      getTeamPoints (applyScore silverFirstDeuce ⟨Team.a⟩ "T").newState
          (otherTeam Team.a) = getTeamPoints silverFirstDeuce (otherTeam Team.a)) ∧
    (Effect.game_won Team.b ∈ (applyScore silverSecondDeuce ⟨Team.b⟩ "T").effects ∧
      (applyScore silverSecondDeuce ⟨Team.b⟩ "T").newState.team_a_points = 0 ∧
      (applyScore silverSecondDeuce ⟨Team.b⟩ "T").newState.team_b_points = 0) :=
  ⟨(silver_point_deuce_behavior silverFirstDeuce Team.a "T" (by decide) rfl rfl
      (by decide) rfl).1 (by decide),
    (silver_point_deuce_behavior silverSecondDeuce Team.b "T" (by decide) rfl rfl
      (by decide) rfl).2 (by decide)⟩

/-! ### C1 -/

/-- A live tiebreak under the configured threshold 7: games stand 7–7 (with
`tiebreak_at := 7` the trigger fires when both game counters reach 7), the
tiebreak is at 6–5. This state is reached through ordinary play. -/
def tiebreakAt7State : MatchState :=
  { baseState with
    tiebreak_at := 7
    is_tiebreak := true
    team_a_games := 7
    team_b_games := 7
    tiebreak_scores := some ⟨6, 5⟩
    tiebreak_starting_server := some Team.a }

/-- C1: evaluation at the failing input. With the tiebreak threshold
configured as 7, winning the tiebreak from games 7–7 leaves the winner's game
count at the hard-coded 7, so the appended completed-set record is 7–7,
`countSetsWon` credits the set to neither team, and the match stays
in progress — against the claimed 7-games-to-6 record counted for the winner.
The engine's own comment assumes "Games are already at 6-6" here, which fails
for the threshold-7 configuration; under it a match can never complete. -/
theorem tiebreak_at7_set_record_bug :
    (applyScore tiebreakAt7State ⟨Team.a⟩ "T").newState.set_scores =
      [{ team_a := 7, team_b := 7 }] ∧
    countSetsWon (applyScore tiebreakAt7State ⟨Team.a⟩ "T").newState = (0, 0) ∧
    (applyScore tiebreakAt7State ⟨Team.a⟩ "T").newState.status =
      MatchStatus.in_progress ∧
    (applyScore tiebreakAt7State ⟨Team.a⟩ "T").newState.is_tiebreak = false := by
  decide

/-! ### C6 -/

/-- The game-winner computation performed by `scoreGamePoint` for one point
(pre-increment deuce/advantage classification, increment, `checkGameWinner`),
exposed as a function so that "the game is won" can be hypothesised. -/
def gameWinnerOf (s : MatchState) (team : Team) : Option Team :=
  let teamPoints := match team with | .a => s.team_a_points | .b => s.team_b_points
  let opponentPoints := match team with | .a => s.team_b_points | .b => s.team_a_points
  let wasDeuce : Bool :=
    decide (3 ≤ teamPoints ∧ 3 ≤ opponentPoints ∧ teamPoints = opponentPoints)
  let wasAdvantage : Bool :=
    decide (3 ≤ teamPoints ∧ 3 ≤ opponentPoints ∧ teamPoints ≠ opponentPoints)
  let s' :=
    match team with
    | .a => { s with team_a_points := s.team_a_points + 1 }
    | .b => { s with team_b_points := s.team_b_points + 1 }
  checkGameWinner s' wasDeuce wasAdvantage team

/-- The server the FIP rotation assigns once `n` tiebreak points have been
played (i.e. the server of point `n + 1`), for starting server `start`. -/
def expectedServer (start : Team) : Nat → Team
  | 0 => start
  | n + 1 => if (n / 2) % 2 = 0 then otherTeam start else start

/-- The state after the first `k` tiebreak points, point `i + 1` being scored
by `f i`. -/
def tbTrace (s0 : MatchState) (f : Nat → Team) (now : String) : Nat → MatchState
  | 0 => s0
  | k + 1 => (applyScore (tbTrace s0 f now k) ⟨f k⟩ now).newState

theorem expectedServer_succ_of_odd (S : Team) (k : Nat) (h : k % 2 = 1) :
    expectedServer S (k + 1) = expectedServer S k := by
  obtain ⟨j, rfl⟩ : ∃ j, k = 2 * j + 1 := ⟨k / 2, by omega⟩
  have h1 : (2 * j + 1) / 2 = j := by omega
  have h2 : 2 * j / 2 = j := by omega
  simp only [expectedServer]
  rw [h1, h2]

theorem tiebreak_step_serving (s : MatchState) (x : Team) (now : String)
    (S : Team) (tb : TbScore) (k : Nat)
    (hst : s.status = MatchStatus.in_progress)
    (htb : s.is_tiebreak = true)
    (hsc : s.tiebreak_scores = some tb)
    (hk : tb.team_a + tb.team_b = k)
    (hk5 : k ≤ 5)
    (hstart : s.tiebreak_starting_server = some S)
    (hserv : s.serving_team = some (expectedServer S k)) :
    (applyScore s ⟨x⟩ now).newState.status = MatchStatus.in_progress ∧
    (applyScore s ⟨x⟩ now).newState.is_tiebreak = true ∧
    (∃ tb', (applyScore s ⟨x⟩ now).newState.tiebreak_scores = some tb' ∧
      tb'.team_a + tb'.team_b = k + 1) ∧
    (applyScore s ⟨x⟩ now).newState.tiebreak_starting_server = some S ∧
    (applyScore s ⟨x⟩ now).newState.serving_team =
      some (expectedServer S (k + 1)) := by
  rw [applyScore_tiebreak_reduce s ⟨x⟩ now (by simp [hst]) htb, if_neg (by simp [hst])]
  cases x <;>
    (simp only [scoreTiebreakPoint, hsc, Option.getD_some]
     rw [if_neg (by simp; omega), if_neg (by simp; omega)]
     simp only [updateTiebreakServer]
     rw [hstart]
     dsimp only
     split_ifs with h0 h1 h2 h3
     · exact absurd h0 (by omega)
     · refine ⟨hst, htb, ⟨_, rfl, by dsimp only; omega⟩, rfl, ?_⟩
       have hk0 : k = 0 := by omega
       subst hk0
       simp [expectedServer]
     · refine ⟨hst, htb, ⟨_, rfl, by dsimp only; omega⟩, rfl, ?_⟩
       simp only [expectedServer]
       rw [if_pos (by omega)]
     · refine ⟨hst, htb, ⟨_, rfl, by dsimp only; omega⟩, rfl, ?_⟩
       simp only [expectedServer]
       rw [if_neg (by omega)]
     · refine ⟨hst, htb, ⟨_, rfl, by dsimp only; omega⟩, rfl, ?_⟩
       rw [hserv, expectedServer_succ_of_odd S k (by omega)])

theorem tiebreak_trace_serving (s0 : MatchState) (f : Nat → Team) (now : String)
    (S : Team)
    (hst : s0.status = MatchStatus.in_progress)
    (htb : s0.is_tiebreak = true)
    (hsc : s0.tiebreak_scores = some ⟨0, 0⟩)
    (hstart : s0.tiebreak_starting_server = some S)
    (hserv : s0.serving_team = some S) :
    ∀ k, k ≤ 6 →
      (tbTrace s0 f now k).status = MatchStatus.in_progress ∧
      (tbTrace s0 f now k).is_tiebreak = true ∧
      (∃ tb', (tbTrace s0 f now k).tiebreak_scores = some tb' ∧
        tb'.team_a + tb'.team_b = k) ∧
      (tbTrace s0 f now k).tiebreak_starting_server = some S ∧
      (tbTrace s0 f now k).serving_team = some (expectedServer S k) := by
  intro k
  induction k with
  | zero => exact fun _ => ⟨hst, htb, ⟨⟨0, 0⟩, hsc, rfl⟩, hstart, hserv⟩
  | succ k ih =>
    intro hk6
    obtain ⟨h1, h2, ⟨tb', h3, h4⟩, h5, h6⟩ := ih (by omega)
    exact tiebreak_step_serving (tbTrace s0 f now k) (f k) now S tb' k
      h1 h2 h3 h4 (by omega) h5 h6

theorem tiebreak_trigger_aux (s : MatchState) (x W srv : Team) (now : String)
    (hst : s.status = MatchStatus.in_progress)
    (htb : s.is_tiebreak = false)
    (hsrv : s.serving_team = some srv)
    (hgw : gameWinnerOf s x = some W)
    (hgW : getTeamGames s W + 1 = s.tiebreak_at)
    (hgO : getTeamGames s (otherTeam W) = s.tiebreak_at) :
    (applyScore s ⟨x⟩ now).newState.status = MatchStatus.in_progress ∧
    (applyScore s ⟨x⟩ now).newState.is_tiebreak = true ∧
    (applyScore s ⟨x⟩ now).newState.tiebreak_scores = some ⟨0, 0⟩ ∧
    (applyScore s ⟨x⟩ now).newState.tiebreak_starting_server = some srv ∧
    (applyScore s ⟨x⟩ now).newState.serving_team = some srv ∧
    getTeamGames (applyScore s ⟨x⟩ now).newState W = s.tiebreak_at ∧
    getTeamGames (applyScore s ⟨x⟩ now).newState (otherTeam W) = s.tiebreak_at ∧
    (applyScore s ⟨x⟩ now).effects =
      [Effect.point_scored x, Effect.game_won W, Effect.tiebreak_started] := by
  rw [applyScore_game_reduce s ⟨x⟩ now (by simp [hst]) htb, if_neg (by simp [hst])]
  cases x <;>
    (simp only [gameWinnerOf] at hgw
     simp only [scoreGamePoint]
     rw [hgw]
     dsimp only
     cases W <;>
       (simp only [handleGameWon, getTeamGames, otherTeam] at hgW hgO ⊢
        rw [if_pos (by omega)]
        rw [if_pos htb]
        exact ⟨hst, rfl, rfl, by rw [hsrv]; rfl, hsrv, by (try dsimp only); omega,
          by (try dsimp only); omega, by simp⟩))

/-- C6: (trigger) when a game win brings both teams' game counters to the
configured tiebreak threshold, the tiebreak flag is set, the tiebreak point
pair is zeroed, the current server is recorded as the tiebreak's starting
server, the effects are exactly `point_scored`, `game_won`,
`tiebreak_started`, and the server does not rotate; (rotation) from any
tiebreak start with starting server `S`, whichever teams win the points, the
server for tiebreak points 1 through 7 is S, ¬S, ¬S, S, S, ¬S, ¬S
(`tbTrace … k` is the state after `k` tiebreak points, so its serving team
is the server of point `k + 1`). -/
theorem tiebreak_trigger_and_rotation :
    (∀ (s : MatchState) (x W srv : Team) (now : String),
      s.status = MatchStatus.in_progress →
      s.is_tiebreak = false →
      s.serving_team = some srv →
      gameWinnerOf s x = some W →
      getTeamGames s W + 1 = s.tiebreak_at →
      getTeamGames s (otherTeam W) = s.tiebreak_at →
      ((applyScore s ⟨x⟩ now).newState.is_tiebreak = true ∧
        (applyScore s ⟨x⟩ now).newState.tiebreak_scores = some ⟨0, 0⟩ ∧
        (applyScore s ⟨x⟩ now).newState.tiebreak_starting_server = some srv ∧
        (applyScore s ⟨x⟩ now).newState.serving_team = some srv ∧
        (applyScore s ⟨x⟩ now).effects =
          [Effect.point_scored x, Effect.game_won W, Effect.tiebreak_started])) ∧
    (∀ (s0 : MatchState) (f : Nat → Team) (now : String) (S : Team),
      s0.status = MatchStatus.in_progress →
      s0.is_tiebreak = true →
      s0.tiebreak_scores = some ⟨0, 0⟩ →
      s0.tiebreak_starting_server = some S →
      s0.serving_team = some S →
      ((tbTrace s0 f now 0).serving_team = some S ∧
        (tbTrace s0 f now 1).serving_team = some (otherTeam S) ∧
        (tbTrace s0 f now 2).serving_team = some (otherTeam S) ∧
        (tbTrace s0 f now 3).serving_team = some S ∧
        (tbTrace s0 f now 4).serving_team = some S ∧
        (tbTrace s0 f now 5).serving_team = some (otherTeam S) ∧
        (tbTrace s0 f now 6).serving_team = some (otherTeam S))) := by
  constructor
  · intro s x W srv now hst htb hsrv hgw hgW hgO
    obtain ⟨_, h2, h3, h4, h5, _, _, h8⟩ :=
      tiebreak_trigger_aux s x W srv now hst htb hsrv hgw hgW hgO
    exact ⟨h2, h3, h4, h5, h8⟩
  · intro s0 f now S hst htb hsc hstart hserv
    have h := tiebreak_trace_serving s0 f now S hst htb hsc hstart hserv
    exact ⟨(h 0 (by omega)).2.2.2.2, (h 1 (by omega)).2.2.2.2,
      (h 2 (by omega)).2.2.2.2, (h 3 (by omega)).2.2.2.2,
      (h 4 (by omega)).2.2.2.2, (h 5 (by omega)).2.2.2.2,
      (h 6 (by omega)).2.2.2.2⟩

/-- Games 5–6 with team a at 40–0: a's game win brings the set to 6–6. -/
def trigger56State : MatchState :=
  { baseState with
    team_a_points := 3
    team_b_points := 0
    team_a_games := 5
    team_b_games := 6
    serving_team := some Team.b }

/-- A freshly started tiebreak with starting server b. -/
def tbStartStateB : MatchState :=
  { baseState with
    is_tiebreak := true
    team_a_games := 6
    team_b_games := 6
    tiebreak_scores := some ⟨0, 0⟩
    tiebreak_starting_server := some Team.b
    serving_team := some Team.b }

/-- Witness for C6 at a concrete 5–6 game win and a concrete tiebreak run. -/
theorem tiebreak_trigger_and_rotation_witness :
    ((applyScore trigger56State ⟨Team.a⟩ "T").newState.is_tiebreak = true ∧
      (applyScore trigger56State ⟨Team.a⟩ "T").newState.tiebreak_scores =
        some ⟨0, 0⟩ ∧
      (applyScore trigger56State ⟨Team.a⟩ "T").newState.tiebreak_starting_server =
        some Team.b ∧
      (applyScore trigger56State ⟨Team.a⟩ "T").newState.serving_team =
        some Team.b ∧
      (applyScore trigger56State ⟨Team.a⟩ "T").effects =
        [Effect.point_scored Team.a, Effect.game_won Team.a,
          Effect.tiebreak_started]) ∧
    ((tbTrace tbStartStateB (fun _ => Team.a) "T" 0).serving_team = some Team.b ∧
      (tbTrace tbStartStateB (fun _ => Team.a) "T" 1).serving_team =
        some (otherTeam Team.b) ∧
      (tbTrace tbStartStateB (fun _ => Team.a) "T" 2).serving_team =
        some (otherTeam Team.b) ∧
      (tbTrace tbStartStateB (fun _ => Team.a) "T" 3).serving_team = some Team.b ∧
      (tbTrace tbStartStateB (fun _ => Team.a) "T" 4).serving_team = some Team.b ∧
      (tbTrace tbStartStateB (fun _ => Team.a) "T" 5).serving_team =
        some (otherTeam Team.b) ∧
      (tbTrace tbStartStateB (fun _ => Team.a) "T" 6).serving_team =
        some (otherTeam Team.b)) :=
  ⟨tiebreak_trigger_and_rotation.1 trigger56State Team.a Team.a Team.b "T"
      rfl rfl rfl (by decide) (by decide) (by decide),
    tiebreak_trigger_and_rotation.2 tbStartStateB (fun _ => Team.a) "T" Team.b
      rfl rfl rfl rfl rfl⟩

/-! ### C9: the clock reaches only the two timestamp fields

Each lemma says: running a handler on a state whose timestamps were
overridden, at one clock reading, produces the same effects and the same
state-up-to-timestamps as running it on the un-overridden state at another
clock reading. The engine never reads `started_at`/`completed_at`. -/

theorem handleMatchWon_time_shift (s : MatchState) (u v : Option String)
    (w : Team) (fx : List Effect) (t1 t2 : String) :
    (handleMatchWon { s with started_at := u, completed_at := v } w fx t1).effects =
      (handleMatchWon s w fx t2).effects ∧
    eraseTimes (handleMatchWon { s with started_at := u, completed_at := v } w fx t1).newState =
      eraseTimes (handleMatchWon s w fx t2).newState := by
  simp [handleMatchWon, eraseTimes]

theorem handleSetWon_time_shift (s : MatchState) (u v : Option String)
    (w : Team) (fx : List Effect) (t1 t2 : String) :
    (handleSetWon { s with started_at := u, completed_at := v } w fx t1).effects =
      (handleSetWon s w fx t2).effects ∧
    eraseTimes (handleSetWon { s with started_at := u, completed_at := v } w fx t1).newState =
      eraseTimes (handleSetWon s w fx t2).newState := by
  simp only [handleSetWon, countSetsWon]
  split_ifs with hc
  · exact handleMatchWon_time_shift
      { s with set_scores := s.set_scores ++ [⟨s.team_a_games, s.team_b_games⟩] }
      u v w (fx ++ [Effect.set_won w]) t1 t2
  · exact ⟨rfl, by simp [eraseTimes]⟩

theorem handleGameWon_time_shift (s : MatchState) (u v : Option String)
    (w : Team) (fx : List Effect) (t1 t2 : String) :
    (handleGameWon { s with started_at := u, completed_at := v } w fx t1).effects =
      (handleGameWon s w fx t2).effects ∧
    eraseTimes (handleGameWon { s with started_at := u, completed_at := v } w fx t1).newState =
      eraseTimes (handleGameWon s w fx t2).newState := by
  cases w
  case a =>
    have hcsw :
        checkSetWinner
          { s with
            team_a_games := s.team_a_games + 1
            team_a_points := 0
            team_b_points := 0
            deuce_count := 0
            started_at := u
            completed_at := v } =
        checkSetWinner
          { s with
            team_a_games := s.team_a_games + 1
            team_a_points := 0
            team_b_points := 0
            deuce_count := 0 } := rfl
    simp only [handleGameWon]
    split_ifs with hc1 hc2
    · exact ⟨rfl, by simp [eraseTimes]⟩
    · exact ⟨rfl, by simp [eraseTimes]⟩
    · rw [hcsw]
      split
      · exact handleSetWon_time_shift
          { s with
            team_a_games := s.team_a_games + 1
            team_a_points := 0
            team_b_points := 0
            deuce_count := 0 }
          u v _ (fx ++ [Effect.game_won Team.a]) t1 t2
      · exact ⟨rfl, by simp [eraseTimes]⟩
  case b =>
    have hcsw :
        checkSetWinner
          { s with
            team_b_games := s.team_b_games + 1
            team_a_points := 0
            team_b_points := 0
            deuce_count := 0
            started_at := u
            completed_at := v } =
        checkSetWinner
          { s with
            team_b_games := s.team_b_games + 1
            team_a_points := 0
            team_b_points := 0
            deuce_count := 0 } := rfl
    simp only [handleGameWon]
    split_ifs with hc1 hc2
    · exact ⟨rfl, by simp [eraseTimes]⟩
    · exact ⟨rfl, by simp [eraseTimes]⟩
    · rw [hcsw]
      split
      · exact handleSetWon_time_shift
          { s with
            team_b_games := s.team_b_games + 1
            team_a_points := 0
            team_b_points := 0
            deuce_count := 0 }
          u v _ (fx ++ [Effect.game_won Team.b]) t1 t2
      · exact ⟨rfl, by simp [eraseTimes]⟩

theorem updateTiebreakServer_time_shift (s : MatchState) (u v : Option String) :
    eraseTimes (updateTiebreakServer { s with started_at := u, completed_at := v }) =
      eraseTimes (updateTiebreakServer s) := by
  simp only [updateTiebreakServer]
  cases hsc : s.tiebreak_scores <;> cases hss : s.tiebreak_starting_server <;>
    simp [eraseTimes, hsc, hss] <;> split_ifs <;> simp [eraseTimes, hsc, hss]

theorem scoreTiebreakPoint_time_shift (s : MatchState) (u v : Option String)
    (x : Team) (fx : List Effect) (t1 t2 : String) :
    (scoreTiebreakPoint { s with started_at := u, completed_at := v } x fx t1).effects =
      (scoreTiebreakPoint s x fx t2).effects ∧
    eraseTimes (scoreTiebreakPoint { s with started_at := u, completed_at := v } x fx t1).newState =
      eraseTimes (scoreTiebreakPoint s x fx t2).newState := by
  cases x
  case a =>
    simp only [scoreTiebreakPoint]
    split_ifs with hc1 hc2
    · exact handleSetWon_time_shift
        { s with
          tiebreak_scores := none
          tiebreak_starting_server := none
          is_tiebreak := false
          team_b_games := 7 }
        u v Team.b (fx ++ [Effect.game_won Team.b]) t1 t2
    · exact handleSetWon_time_shift
        { s with
          tiebreak_scores := none
          tiebreak_starting_server := none
          is_tiebreak := false
          team_a_games := 7 }
        u v Team.a (fx ++ [Effect.game_won Team.a]) t1 t2
    · refine ⟨rfl, ?_⟩
      exact updateTiebreakServer_time_shift
        { s with
          tiebreak_scores :=
            some { s.tiebreak_scores.getD ⟨0, 0⟩ with
              team_a := (s.tiebreak_scores.getD ⟨0, 0⟩).team_a + 1 } }
        u v
  case b =>
    simp only [scoreTiebreakPoint]
    split_ifs with hc1 hc2
    · exact handleSetWon_time_shift
        { s with
          tiebreak_scores := none
          tiebreak_starting_server := none
          is_tiebreak := false
          team_b_games := 7 }
        u v Team.b (fx ++ [Effect.game_won Team.b]) t1 t2
    · exact handleSetWon_time_shift
        { s with
          tiebreak_scores := none
          tiebreak_starting_server := none
          is_tiebreak := false
          team_a_games := 7 }
        u v Team.a (fx ++ [Effect.game_won Team.a]) t1 t2
    · refine ⟨rfl, ?_⟩
      exact updateTiebreakServer_time_shift
        { s with
          tiebreak_scores :=
            some { s.tiebreak_scores.getD ⟨0, 0⟩ with
              team_b := (s.tiebreak_scores.getD ⟨0, 0⟩).team_b + 1 } }
        u v

theorem scoreGamePoint_time_shift (s : MatchState) (u v : Option String)
    (x : Team) (fx : List Effect) (t1 t2 : String) :
    (scoreGamePoint { s with started_at := u, completed_at := v } x fx t1).effects =
      (scoreGamePoint s x fx t2).effects ∧
    eraseTimes (scoreGamePoint { s with started_at := u, completed_at := v } x fx t1).newState =
      eraseTimes (scoreGamePoint s x fx t2).newState := by
  cases x
  case a =>
    have hcg : ∀ wd wa : Bool,
        checkGameWinner
          { s with
            team_a_points := s.team_a_points + 1
            started_at := u
            completed_at := v } wd wa Team.a =
        checkGameWinner { s with team_a_points := s.team_a_points + 1 } wd wa
          Team.a :=
      fun _ _ => rfl
    simp only [scoreGamePoint]
    rw [hcg]
    split
    · rename_i gw heq
      rw [heq]
      dsimp only
      have h := handleGameWon_time_shift { s with team_a_points := s.team_a_points + 1 }
        u v gw fx t1 t2
      have hrec :
          ({ { s with team_a_points := s.team_a_points + 1 } with
            started_at := u
            completed_at := v } : MatchState) =
          { s with
            team_a_points := s.team_a_points + 1
            started_at := u
            completed_at := v } := rfl
      rw [hrec] at h
      exact h
    · rename_i heq
      rw [heq]
      dsimp only
      split_ifs <;> exact ⟨rfl, by simp [eraseTimes]⟩
  case b =>
    have hcg : ∀ wd wa : Bool,
        checkGameWinner
          { s with
            team_b_points := s.team_b_points + 1
            started_at := u
            completed_at := v } wd wa Team.b =
        checkGameWinner { s with team_b_points := s.team_b_points + 1 } wd wa
          Team.b :=
      fun _ _ => rfl
    simp only [scoreGamePoint]
    rw [hcg]
    split
    · rename_i gw heq
      rw [heq]
      dsimp only
      have h := handleGameWon_time_shift { s with team_b_points := s.team_b_points + 1 }
        u v gw fx t1 t2
      have hrec :
          ({ { s with team_b_points := s.team_b_points + 1 } with
            started_at := u
            completed_at := v } : MatchState) =
          { s with
            team_b_points := s.team_b_points + 1
            started_at := u
            completed_at := v } := rfl
      rw [hrec] at h
      exact h
    · rename_i heq
      rw [heq]
      dsimp only
      split_ifs <;> exact ⟨rfl, by simp [eraseTimes]⟩

/-- C9 (amended): `applyScore` is deterministic as a function of its full
inputs — input state, event, and the clock reading it stamps — and the clock
reading influences nothing but the `started_at`/`completed_at` timestamps:
two runs on the same state and event at different clock readings return
identical effect lists and states that agree on every field other than the
two timestamps. (The input state itself is a value and is never modified;
the JSON clone in the source enforces the same.) -/
theorem applyScore_time_determinism (s : MatchState) (e : ScoreEvent)
    (t1 t2 : String) :
    (applyScore s e t1).effects = (applyScore s e t2).effects ∧
    eraseTimes (applyScore s e t1).newState =
      eraseTimes (applyScore s e t2).newState := by
  by_cases hterm : s.status = MatchStatus.completed ∨ s.status = MatchStatus.abandoned
  · unfold applyScore
    rw [if_pos hterm, if_pos hterm]
    exact ⟨rfl, rfl⟩
  · unfold applyScore
    rw [if_neg hterm, if_neg hterm]
    by_cases hsetup : s.status = MatchStatus.setup
    · rw [if_pos hsetup, if_pos hsetup]
      dsimp only
      by_cases htb : s.is_tiebreak = true
      · rw [if_pos htb, if_pos htb]
        have h1 := scoreTiebreakPoint_time_shift
          { s with status := MatchStatus.in_progress } (some t1) s.completed_at
          e.team [Effect.point_scored e.team] t1 t2
        have h2 := scoreTiebreakPoint_time_shift
          { s with status := MatchStatus.in_progress } (some t2) s.completed_at
          e.team [Effect.point_scored e.team] t2 t2
        exact ⟨h1.1.trans h2.1.symm, h1.2.trans h2.2.symm⟩
      · rw [if_neg htb, if_neg htb]
        have h1 := scoreGamePoint_time_shift
          { s with status := MatchStatus.in_progress } (some t1) s.completed_at
          e.team [Effect.point_scored e.team] t1 t2
        have h2 := scoreGamePoint_time_shift
          { s with status := MatchStatus.in_progress } (some t2) s.completed_at
          e.team [Effect.point_scored e.team] t2 t2
        exact ⟨h1.1.trans h2.1.symm, h1.2.trans h2.2.symm⟩
    · rw [if_neg hsetup, if_neg hsetup]
      dsimp only
      by_cases htb : s.is_tiebreak = true
      · rw [if_pos htb, if_pos htb]
        exact scoreTiebreakPoint_time_shift s s.started_at s.completed_at
          e.team [Effect.point_scored e.team] t1 t2
      · rw [if_neg htb, if_neg htb]
        exact scoreGamePoint_time_shift s s.started_at s.completed_at
          e.team [Effect.point_scored e.team] t1 t2

/-- A setup-status state about to receive its first point. -/
def setupState : MatchState :=
  { baseState with status := MatchStatus.setup, started_at := none }

/-- C9 counterexample: two calls with equal input state and equal event but
made at different wall-clock instants return different states — the stamped
`started_at` differs — so `applyScore` as executed (reading `new Date()`)
is not a function of state and event alone. -/
theorem applyScore_clock_dependence_cex :
    (applyScore setupState ⟨Team.a⟩ "2024-01-01T00:00:00Z").newState.started_at =
      some "2024-01-01T00:00:00Z" ∧
    (applyScore setupState ⟨Team.a⟩ "2024-01-02T00:00:00Z").newState.started_at =
      some "2024-01-02T00:00:00Z" ∧
    applyScore setupState ⟨Team.a⟩ "2024-01-01T00:00:00Z" ≠
      applyScore setupState ⟨Team.a⟩ "2024-01-02T00:00:00Z" := by
  exact ⟨rfl, rfl, by decide⟩

/-! ### C3: invariant preservation -/

theorem setWonCount_append (l1 l2 : List Effect) :
    setWonCount (l1 ++ l2) = setWonCount l1 + setWonCount l2 :=
  List.countP_append _ _ _

theorem setWonCount_set_match (w w2 : Team) :
    setWonCount [Effect.set_won w, Effect.match_won w2] = 1 := rfl

theorem setWonCount_set_started (w : Team) (n : Nat) :
    setWonCount [Effect.set_won w, Effect.set_started n] = 1 := rfl

theorem setWonCount_game_won (w : Team) : setWonCount [Effect.game_won w] = 0 := rfl

theorem handleSetWon_inv (s : MatchState) (w : Team) (fx : List Effect)
    (now : String)
    (hWin : s.winner.isSome ↔ s.status = MatchStatus.completed)
    (hT : s.is_tiebreak = false →
      s.tiebreak_scores = none ∧ s.tiebreak_starting_server = none) :
    (handleSetWon s w fx now).newState.set_scores =
      s.set_scores ++ [⟨s.team_a_games, s.team_b_games⟩] ∧
    (handleSetWon s w fx now).newState.set_scores.length + setWonCount fx =
      s.set_scores.length + setWonCount (handleSetWon s w fx now).effects ∧
    ((handleSetWon s w fx now).newState.winner.isSome ↔
      (handleSetWon s w fx now).newState.status = MatchStatus.completed) ∧
    ((handleSetWon s w fx now).newState.is_tiebreak = false →
      (handleSetWon s w fx now).newState.tiebreak_scores = none ∧
      (handleSetWon s w fx now).newState.tiebreak_starting_server = none) := by
  simp only [handleSetWon]
  split_ifs with hc
  · refine ⟨rfl, ?_, by simp [handleMatchWon], ?_⟩
    · simp [handleMatchWon, setWonCount_append, setWonCount_set_match]
      omega
    · intro hfl
      exact hT hfl
  · refine ⟨rfl, ?_, by simpa using hWin, fun _ => ⟨rfl, rfl⟩⟩
    simp [setWonCount_append, setWonCount_set_started]
    omega

theorem setWonCount_tb_started : setWonCount [Effect.tiebreak_started] = 0 := rfl

theorem handleGameWon_inv (s : MatchState) (w : Team) (fx : List Effect)
    (now : String)
    (hWin : s.winner.isSome ↔ s.status = MatchStatus.completed)
    (hT : s.is_tiebreak = false →
      s.tiebreak_scores = none ∧ s.tiebreak_starting_server = none) :
    (∃ tail, (handleGameWon s w fx now).newState.set_scores =
      s.set_scores ++ tail) ∧
    (handleGameWon s w fx now).newState.set_scores.length + setWonCount fx =
      s.set_scores.length + setWonCount (handleGameWon s w fx now).effects ∧
    ((handleGameWon s w fx now).newState.winner.isSome ↔
      (handleGameWon s w fx now).newState.status = MatchStatus.completed) ∧
    ((handleGameWon s w fx now).newState.is_tiebreak = false →
      (handleGameWon s w fx now).newState.tiebreak_scores = none ∧
      (handleGameWon s w fx now).newState.tiebreak_starting_server = none) := by
  cases w
  case a =>
    simp only [handleGameWon]
    split_ifs with hc1 hc2
    · refine ⟨⟨[], by simp⟩, ?_, by simpa using hWin, ?_⟩
      · simp [setWonCount, List.countP_append, List.countP_cons]
      · intro h
        exact absurd h (by simp)
    · refine ⟨⟨[], by simp⟩, ?_, by simpa using hWin, ?_⟩
      · simp [setWonCount, List.countP_append, List.countP_cons]
      · intro h
        exact absurd h hc2
    · split
      · rename_i sw heq
        obtain ⟨hA, hB, hC, hD⟩ := handleSetWon_inv
          { s with
            team_a_games := s.team_a_games + 1
            team_a_points := 0
            team_b_points := 0
            deuce_count := 0 }
          sw (fx ++ [Effect.game_won Team.a]) now (by simpa using hWin)
          (by simpa using hT)
        refine ⟨⟨_, hA⟩, ?_, hC, hD⟩
        rw [hA] at hB ⊢
        simp only [setWonCount, List.countP_append, List.countP_cons,
          List.length_append] at hB ⊢
        simp at hB ⊢
        omega
      · exact ⟨⟨[], by simp⟩,
          by simp [setWonCount, List.countP_append, List.countP_cons],
          by simpa using hWin, by simpa using hT⟩
  case b =>
    simp only [handleGameWon]
    split_ifs with hc1 hc2
    · refine ⟨⟨[], by simp⟩, ?_, by simpa using hWin, ?_⟩
      · simp [setWonCount, List.countP_append, List.countP_cons]
      · intro h
        exact absurd h (by simp)
    · refine ⟨⟨[], by simp⟩, ?_, by simpa using hWin, ?_⟩
      · simp [setWonCount, List.countP_append, List.countP_cons]
      · intro h
        exact absurd h hc2
    · split
      · rename_i sw heq
        obtain ⟨hA, hB, hC, hD⟩ := handleSetWon_inv
          { s with
            team_b_games := s.team_b_games + 1
            team_a_points := 0
            team_b_points := 0
            deuce_count := 0 }
          sw (fx ++ [Effect.game_won Team.b]) now (by simpa using hWin)
          (by simpa using hT)
        refine ⟨⟨_, hA⟩, ?_, hC, hD⟩
        rw [hA] at hB ⊢
        simp only [setWonCount, List.countP_append, List.countP_cons,
          List.length_append] at hB ⊢
        simp at hB ⊢
        omega
      · exact ⟨⟨[], by simp⟩,
          by simp [setWonCount, List.countP_append, List.countP_cons],
          by simpa using hWin, by simpa using hT⟩

theorem updateTiebreakServer_shape (s : MatchState) :
    ∃ t, updateTiebreakServer s = { s with serving_team := t } := by
  obtain ⟨i1, i2, i3, i4, i5, i6, i7, i8, i9, i10, i11, i12, i13, i14, tbs, tss,
    i17, sv, i19, i20, i21, i22, i23, i24, i25⟩ := s
  cases tbs <;> cases tss <;> simp only [updateTiebreakServer] <;> (try dsimp only)
  · exact ⟨sv, rfl⟩
  · exact ⟨sv, rfl⟩
  · exact ⟨sv, rfl⟩
  · rename_i tb start
    split_ifs
    · exact ⟨some start, rfl⟩
    · exact ⟨some (otherTeam start), rfl⟩
    · exact ⟨some (otherTeam start), rfl⟩
    · exact ⟨some start, rfl⟩
    · exact ⟨sv, rfl⟩

theorem scoreTiebreakPoint_inv (s : MatchState) (x : Team) (fx : List Effect)
    (now : String)
    (hWin : s.winner.isSome ↔ s.status = MatchStatus.completed)
    (htbIn : s.is_tiebreak = true) :
    (∃ tail, (scoreTiebreakPoint s x fx now).newState.set_scores =
      s.set_scores ++ tail) ∧
    (scoreTiebreakPoint s x fx now).newState.set_scores.length + setWonCount fx =
      s.set_scores.length + setWonCount (scoreTiebreakPoint s x fx now).effects ∧
    ((scoreTiebreakPoint s x fx now).newState.winner.isSome ↔
      (scoreTiebreakPoint s x fx now).newState.status = MatchStatus.completed) ∧
    ((scoreTiebreakPoint s x fx now).newState.is_tiebreak = false →
      (scoreTiebreakPoint s x fx now).newState.tiebreak_scores = none ∧
      (scoreTiebreakPoint s x fx now).newState.tiebreak_starting_server = none) := by
  cases x
  case a =>
    simp only [scoreTiebreakPoint]
    split_ifs with hc1 hc2
    · obtain ⟨hA, hB, hC, hD⟩ := handleSetWon_inv
        { s with
          is_tiebreak := false
          team_b_games := 7
          tiebreak_scores := none
          tiebreak_starting_server := none }
        Team.b (fx ++ [Effect.game_won Team.b]) now (by simpa using hWin)
        (fun _ => ⟨rfl, rfl⟩)
      refine ⟨⟨_, hA⟩, ?_, hC, hD⟩
      rw [hA] at hB ⊢
      simp only [setWonCount, List.countP_append, List.countP_cons,
        List.length_append] at hB ⊢
      simp at hB ⊢
      omega
    · obtain ⟨hA, hB, hC, hD⟩ := handleSetWon_inv
        { s with
          is_tiebreak := false
          team_a_games := 7
          tiebreak_scores := none
          tiebreak_starting_server := none }
        Team.a (fx ++ [Effect.game_won Team.a]) now (by simpa using hWin)
        (fun _ => ⟨rfl, rfl⟩)
      refine ⟨⟨_, hA⟩, ?_, hC, hD⟩
      rw [hA] at hB ⊢
      simp only [setWonCount, List.countP_append, List.countP_cons,
        List.length_append] at hB ⊢
      simp at hB ⊢
      omega
    · obtain ⟨st, hupd⟩ := updateTiebreakServer_shape
        { s with
          tiebreak_scores :=
            some { s.tiebreak_scores.getD ⟨0, 0⟩ with
              team_a := (s.tiebreak_scores.getD ⟨0, 0⟩).team_a + 1 } }
      rw [hupd]
      refine ⟨⟨[], by simp⟩, by simp, by simpa using hWin, ?_⟩
      intro h
      rw [show ((({ s with
        tiebreak_scores :=
          some { s.tiebreak_scores.getD ⟨0, 0⟩ with
            team_a := (s.tiebreak_scores.getD ⟨0, 0⟩).team_a + 1 } } : MatchState)
        ).is_tiebreak) = s.is_tiebreak from rfl] at h
      exact absurd h (by simp [htbIn])
  case b =>
    simp only [scoreTiebreakPoint]
    split_ifs with hc1 hc2
    · obtain ⟨hA, hB, hC, hD⟩ := handleSetWon_inv
        { s with
          is_tiebreak := false
          team_b_games := 7
          tiebreak_scores := none
          tiebreak_starting_server := none }
        Team.b (fx ++ [Effect.game_won Team.b]) now (by simpa using hWin)
        (fun _ => ⟨rfl, rfl⟩)
      refine ⟨⟨_, hA⟩, ?_, hC, hD⟩
      rw [hA] at hB ⊢
      simp only [setWonCount, List.countP_append, List.countP_cons,
        List.length_append] at hB ⊢
      simp at hB ⊢
      omega
    · obtain ⟨hA, hB, hC, hD⟩ := handleSetWon_inv
        { s with
          is_tiebreak := false
          team_a_games := 7
          tiebreak_scores := none
          tiebreak_starting_server := none }
        Team.a (fx ++ [Effect.game_won Team.a]) now (by simpa using hWin)
        (fun _ => ⟨rfl, rfl⟩)
      refine ⟨⟨_, hA⟩, ?_, hC, hD⟩
      rw [hA] at hB ⊢
      simp only [setWonCount, List.countP_append, List.countP_cons,
        List.length_append] at hB ⊢
      simp at hB ⊢
      omega
    · obtain ⟨st, hupd⟩ := updateTiebreakServer_shape
        { s with
          tiebreak_scores :=
            some { s.tiebreak_scores.getD ⟨0, 0⟩ with
              team_b := (s.tiebreak_scores.getD ⟨0, 0⟩).team_b + 1 } }
      rw [hupd]
      refine ⟨⟨[], by simp⟩, by simp, by simpa using hWin, ?_⟩
      intro h
      rw [show ((({ s with
        tiebreak_scores :=
          some { s.tiebreak_scores.getD ⟨0, 0⟩ with
            team_b := (s.tiebreak_scores.getD ⟨0, 0⟩).team_b + 1 } } : MatchState)
        ).is_tiebreak) = s.is_tiebreak from rfl] at h
      exact absurd h (by simp [htbIn])

theorem scoreGamePoint_inv (s : MatchState) (x : Team) (fx : List Effect)
    (now : String)
    (hWin : s.winner.isSome ↔ s.status = MatchStatus.completed)
    (hT : s.is_tiebreak = false →
      s.tiebreak_scores = none ∧ s.tiebreak_starting_server = none) :
    (∃ tail, (scoreGamePoint s x fx now).newState.set_scores =
      s.set_scores ++ tail) ∧
    (scoreGamePoint s x fx now).newState.set_scores.length + setWonCount fx =
      s.set_scores.length + setWonCount (scoreGamePoint s x fx now).effects ∧
    ((scoreGamePoint s x fx now).newState.winner.isSome ↔
      (scoreGamePoint s x fx now).newState.status = MatchStatus.completed) ∧
    ((scoreGamePoint s x fx now).newState.is_tiebreak = false →
      (scoreGamePoint s x fx now).newState.tiebreak_scores = none ∧
      (scoreGamePoint s x fx now).newState.tiebreak_starting_server = none) := by
  cases x
  case a =>
    simp only [scoreGamePoint]
    split
    · rename_i gw heq
      obtain ⟨⟨tl, hA⟩, hB, hC, hD⟩ := handleGameWon_inv
        { s with team_a_points := s.team_a_points + 1 } gw fx now
        (by simpa using hWin) (by simpa using hT)
      refine ⟨⟨tl, by simpa using hA⟩, ?_, hC, hD⟩
      simpa using hB
    · refine ⟨⟨[], by split_ifs <;> simp⟩, ?_, ?_, ?_⟩
      · split_ifs <;>
          simp [setWonCount, List.countP_append, List.countP_cons]
      · split_ifs <;> simpa using hWin
      · split_ifs <;> intro h <;> exact hT (by simpa using h)
  case b =>
    simp only [scoreGamePoint]
    split
    · rename_i gw heq
      obtain ⟨⟨tl, hA⟩, hB, hC, hD⟩ := handleGameWon_inv
        { s with team_b_points := s.team_b_points + 1 } gw fx now
        (by simpa using hWin) (by simpa using hT)
      refine ⟨⟨tl, by simpa using hA⟩, ?_, hC, hD⟩
      simpa using hB
    · refine ⟨⟨[], by split_ifs <;> simp⟩, ?_, ?_, ?_⟩
      · split_ifs <;>
          simp [setWonCount, List.countP_append, List.countP_cons]
      · split_ifs <;> simpa using hWin
      · split_ifs <;> intro h <;> exact hT (by simpa using h)

/-- C3: for every match state satisfying the data-model invariants (winner
present iff completed; tiebreak pair and starting-server present only while
the tiebreak flag is set) and every team event, `applyScore` (a total Lean
function, so it terminates on all inputs) returns a state satisfying them
again: all point/game/tiebreak counters are non-negative (they are `Nat`),
the tiebreak fields are present only while the flag is set, `winner` is
non-null iff the status is completed, the returned `set_scores` extends the
input list, and its length grows by exactly the number of `set_won` effects
emitted (one per completed set, so it never shrinks). -/
theorem applyScore_totality_invariants (s : MatchState) (e : ScoreEvent)
    (now : String)
    (hWin : s.winner.isSome ↔ s.status = MatchStatus.completed)
    (hT : s.is_tiebreak = false →
      s.tiebreak_scores = none ∧ s.tiebreak_starting_server = none) :
    (0 ≤ (applyScore s e now).newState.team_a_points ∧
      0 ≤ (applyScore s e now).newState.team_b_points ∧
      0 ≤ (applyScore s e now).newState.team_a_games ∧
      0 ≤ (applyScore s e now).newState.team_b_games ∧
      (∀ tb, (applyScore s e now).newState.tiebreak_scores = some tb →
        0 ≤ tb.team_a ∧ 0 ≤ tb.team_b)) ∧
    ((applyScore s e now).newState.winner.isSome ↔
      (applyScore s e now).newState.status = MatchStatus.completed) ∧
    ((applyScore s e now).newState.is_tiebreak = false →
      (applyScore s e now).newState.tiebreak_scores = none ∧
      (applyScore s e now).newState.tiebreak_starting_server = none) ∧
    (∃ tail, (applyScore s e now).newState.set_scores = s.set_scores ++ tail) ∧
    (applyScore s e now).newState.set_scores.length =
      s.set_scores.length + setWonCount (applyScore s e now).effects := by
  have nn : ∀ r : ScoreResult,
      0 ≤ r.newState.team_a_points ∧ 0 ≤ r.newState.team_b_points ∧
      0 ≤ r.newState.team_a_games ∧ 0 ≤ r.newState.team_b_games ∧
      (∀ tb, r.newState.tiebreak_scores = some tb →
        0 ≤ tb.team_a ∧ 0 ≤ tb.team_b) :=
    fun r => ⟨Nat.zero_le _, Nat.zero_le _, Nat.zero_le _, Nat.zero_le _,
      fun _ _ => ⟨Nat.zero_le _, Nat.zero_le _⟩⟩
  by_cases hterm : s.status = MatchStatus.completed ∨ s.status = MatchStatus.abandoned
  · unfold applyScore
    rw [if_pos hterm]
    exact ⟨nn _, hWin, hT, ⟨[], by simp⟩, by simp [setWonCount]⟩
  · have hwn : s.winner = none := by
      cases hw : s.winner with
      | none => rfl
      | some t =>
        have hco := hWin.mp (by simp [hw])
        exact absurd (Or.inl hco) hterm
    unfold applyScore
    rw [if_neg hterm]
    by_cases hsetup : s.status = MatchStatus.setup
    · rw [if_pos hsetup]
      dsimp only
      by_cases htb : s.is_tiebreak = true
      · rw [if_pos htb]
        obtain ⟨hA, hB, hC, hD⟩ := scoreTiebreakPoint_inv
          { s with status := MatchStatus.in_progress, started_at := some now }
          e.team [Effect.point_scored e.team] now (by simp [hwn]) (by simpa using htb)
        refine ⟨nn _, hC, hD, by simpa using hA, ?_⟩
        simpa [setWonCount, List.countP_cons] using hB
      · rw [if_neg htb]
        obtain ⟨hA, hB, hC, hD⟩ := scoreGamePoint_inv
          { s with status := MatchStatus.in_progress, started_at := some now }
          e.team [Effect.point_scored e.team] now (by simp [hwn])
          (by simpa using hT)
        refine ⟨nn _, hC, hD, by simpa using hA, ?_⟩
        simpa [setWonCount, List.countP_cons] using hB
    · rw [if_neg hsetup]
      dsimp only
      by_cases htb : s.is_tiebreak = true
      · rw [if_pos htb]
        obtain ⟨hA, hB, hC, hD⟩ := scoreTiebreakPoint_inv s
          e.team [Effect.point_scored e.team] now hWin htb
        refine ⟨nn _, hC, hD, hA, ?_⟩
        simpa [setWonCount, List.countP_cons] using hB
      · rw [if_neg htb]
        obtain ⟨hA, hB, hC, hD⟩ := scoreGamePoint_inv s
          e.team [Effect.point_scored e.team] now hWin hT
        refine ⟨nn _, hC, hD, hA, ?_⟩
        simpa [setWonCount, List.countP_cons] using hB

/-- Witness for C3 at a concrete valid in-progress state. -/
theorem applyScore_totality_invariants_witness :
    (0 ≤ (applyScore baseState ⟨Team.a⟩ "T").newState.team_a_points ∧
      0 ≤ (applyScore baseState ⟨Team.a⟩ "T").newState.team_b_points ∧
      0 ≤ (applyScore baseState ⟨Team.a⟩ "T").newState.team_a_games ∧
      0 ≤ (applyScore baseState ⟨Team.a⟩ "T").newState.team_b_games ∧
      (∀ tb, (applyScore baseState ⟨Team.a⟩ "T").newState.tiebreak_scores = some tb →
        0 ≤ tb.team_a ∧ 0 ≤ tb.team_b)) ∧
    ((applyScore baseState ⟨Team.a⟩ "T").newState.winner.isSome ↔
      (applyScore baseState ⟨Team.a⟩ "T").newState.status = MatchStatus.completed) ∧
    ((applyScore baseState ⟨Team.a⟩ "T").newState.is_tiebreak = false →
      (applyScore baseState ⟨Team.a⟩ "T").newState.tiebreak_scores = none ∧
      (applyScore baseState ⟨Team.a⟩ "T").newState.tiebreak_starting_server = none) ∧
    (∃ tail, (applyScore baseState ⟨Team.a⟩ "T").newState.set_scores =
      baseState.set_scores ++ tail) ∧
    (applyScore baseState ⟨Team.a⟩ "T").newState.set_scores.length =
      baseState.set_scores.length +
        setWonCount (applyScore baseState ⟨Team.a⟩ "T").effects :=
  applyScore_totality_invariants baseState ⟨Team.a⟩ "T" (by decide)
    (fun _ => ⟨rfl, rfl⟩)

/-! ### C7/C8: the engine leaves identity, version, and player fields alone -/

theorem handleSetWon_fixed (s : MatchState) (w : Team) (fx : List Effect)
    (now : String) :
    (handleSetWon s w fx now).newState.version = s.version ∧
    (handleSetWon s w fx now).newState.team_a_player_1 = s.team_a_player_1 ∧
    (handleSetWon s w fx now).newState.team_a_player_2 = s.team_a_player_2 ∧
    (handleSetWon s w fx now).newState.team_b_player_1 = s.team_b_player_1 ∧
    (handleSetWon s w fx now).newState.team_b_player_2 = s.team_b_player_2 ∧
    (handleSetWon s w fx now).newState.started_at = s.started_at ∧
    ((handleSetWon s w fx now).newState.completed_at = s.completed_at ∨
      (handleSetWon s w fx now).newState.completed_at = some now) := by
  simp only [handleSetWon]
  split_ifs <;> simp [handleMatchWon]

theorem handleGameWon_fixed (s : MatchState) (w : Team) (fx : List Effect)
    (now : String) :
    (handleGameWon s w fx now).newState.version = s.version ∧
    (handleGameWon s w fx now).newState.team_a_player_1 = s.team_a_player_1 ∧
    (handleGameWon s w fx now).newState.team_a_player_2 = s.team_a_player_2 ∧
    (handleGameWon s w fx now).newState.team_b_player_1 = s.team_b_player_1 ∧
    (handleGameWon s w fx now).newState.team_b_player_2 = s.team_b_player_2 ∧
    (handleGameWon s w fx now).newState.started_at = s.started_at ∧
    ((handleGameWon s w fx now).newState.completed_at = s.completed_at ∨
      (handleGameWon s w fx now).newState.completed_at = some now) := by
  cases w <;>
    (simp only [handleGameWon]
     split_ifs <;> (try split) <;>
       first
         | simp
         | (rename_i sw _
            obtain ⟨h1, h2, h3, h4, h5, h6, h7⟩ := handleSetWon_fixed _ sw _ now
            exact ⟨by simpa using h1, by simpa using h2, by simpa using h3,
              by simpa using h4, by simpa using h5, by simpa using h6,
              by simpa using h7⟩))

theorem scoreTiebreakPoint_fixed (s : MatchState) (x : Team) (fx : List Effect)
    (now : String) :
    (scoreTiebreakPoint s x fx now).newState.version = s.version ∧
    (scoreTiebreakPoint s x fx now).newState.team_a_player_1 = s.team_a_player_1 ∧
    (scoreTiebreakPoint s x fx now).newState.team_a_player_2 = s.team_a_player_2 ∧
    (scoreTiebreakPoint s x fx now).newState.team_b_player_1 = s.team_b_player_1 ∧
    (scoreTiebreakPoint s x fx now).newState.team_b_player_2 = s.team_b_player_2 ∧
    (scoreTiebreakPoint s x fx now).newState.started_at = s.started_at ∧
    ((scoreTiebreakPoint s x fx now).newState.completed_at = s.completed_at ∨
      (scoreTiebreakPoint s x fx now).newState.completed_at = some now) := by
  cases x <;>
    (simp only [scoreTiebreakPoint]
     split_ifs <;>
       first
         | (rename_i hw
            obtain ⟨h1, h2, h3, h4, h5, h6, h7⟩ := handleSetWon_fixed _ _ _ now
            exact ⟨by simpa using h1, by simpa using h2, by simpa using h3,
              by simpa using h4, by simpa using h5, by simpa using h6,
              by simpa using h7⟩)
         | (obtain ⟨st, hupd⟩ := updateTiebreakServer_shape _
            rw [hupd]
            simp))

theorem scoreGamePoint_fixed (s : MatchState) (x : Team) (fx : List Effect)
    (now : String) :
    (scoreGamePoint s x fx now).newState.version = s.version ∧
    (scoreGamePoint s x fx now).newState.team_a_player_1 = s.team_a_player_1 ∧
    (scoreGamePoint s x fx now).newState.team_a_player_2 = s.team_a_player_2 ∧
    (scoreGamePoint s x fx now).newState.team_b_player_1 = s.team_b_player_1 ∧
    (scoreGamePoint s x fx now).newState.team_b_player_2 = s.team_b_player_2 ∧
    (scoreGamePoint s x fx now).newState.started_at = s.started_at ∧
    ((scoreGamePoint s x fx now).newState.completed_at = s.completed_at ∨
      (scoreGamePoint s x fx now).newState.completed_at = some now) := by
  cases x <;>
    (simp only [scoreGamePoint]
     split <;>
       first
         | (rename_i gw heq
            obtain ⟨h1, h2, h3, h4, h5, h6, h7⟩ := handleGameWon_fixed _ gw fx now
            exact ⟨by simpa using h1, by simpa using h2, by simpa using h3,
              by simpa using h4, by simpa using h5, by simpa using h6,
              by simpa using h7⟩)
         | (split_ifs <;> simp))

theorem applyScore_fixed (s : MatchState) (e : ScoreEvent) (now : String) :
    (applyScore s e now).newState.version = s.version ∧
    (applyScore s e now).newState.team_a_player_1 = s.team_a_player_1 ∧
    (applyScore s e now).newState.team_a_player_2 = s.team_a_player_2 ∧
    (applyScore s e now).newState.team_b_player_1 = s.team_b_player_1 ∧
    (applyScore s e now).newState.team_b_player_2 = s.team_b_player_2 ∧
    ((applyScore s e now).newState.started_at = s.started_at ∨
      (applyScore s e now).newState.started_at = some now) ∧
    ((applyScore s e now).newState.completed_at = s.completed_at ∨
      (applyScore s e now).newState.completed_at = some now) := by
  by_cases hterm : s.status = MatchStatus.completed ∨ s.status = MatchStatus.abandoned
  · unfold applyScore
    rw [if_pos hterm]
    exact ⟨rfl, rfl, rfl, rfl, rfl, Or.inl rfl, Or.inl rfl⟩
  · unfold applyScore
    rw [if_neg hterm]
    by_cases hsetup : s.status = MatchStatus.setup
    · rw [if_pos hsetup]
      dsimp only
      by_cases htb : s.is_tiebreak = true
      · rw [if_pos htb]
        obtain ⟨h1, h2, h3, h4, h5, h6, h7⟩ := scoreTiebreakPoint_fixed
          { s with status := MatchStatus.in_progress, started_at := some now }
          e.team [Effect.point_scored e.team] now
        refine ⟨h1, h2, h3, h4, h5, Or.inr (by simpa using h6), ?_⟩
        rcases h7 with h | h
        · exact Or.inl (by simpa using h)
        · exact Or.inr h
      · rw [if_neg htb]
        obtain ⟨h1, h2, h3, h4, h5, h6, h7⟩ := scoreGamePoint_fixed
          { s with status := MatchStatus.in_progress, started_at := some now }
          e.team [Effect.point_scored e.team] now
        refine ⟨h1, h2, h3, h4, h5, Or.inr (by simpa using h6), ?_⟩
        rcases h7 with h | h
        · exact Or.inl (by simpa using h)
        · exact Or.inr h
    · rw [if_neg hsetup]
      dsimp only
      by_cases htb : s.is_tiebreak = true
      · rw [if_pos htb]
        obtain ⟨h1, h2, h3, h4, h5, h6, h7⟩ := scoreTiebreakPoint_fixed s
          e.team [Effect.point_scored e.team] now
        exact ⟨h1, h2, h3, h4, h5, Or.inl h6, h7⟩
      · rw [if_neg htb]
        obtain ⟨h1, h2, h3, h4, h5, h6, h7⟩ := scoreGamePoint_fixed s
          e.team [Effect.point_scored e.team] now
        exact ⟨h1, h2, h3, h4, h5, Or.inl h6, h7⟩

theorem normName_idem (o : Option String) : normName (normName o) = normName o := by
  cases o with
  | none => rfl
  | some s =>
    simp only [normName]
    split_ifs with h
    · rfl
    · simp [normName, h]

theorem normState_idem (s : MatchState) : normState (normState s) = normState s := by
  simp [normState, normName_idem]

/-- Well-formed store: the live row and every logged snapshot are fixed by
the row/state conversions (no empty-string optional fields). -/
def StoreWF (st : Store) : Prop :=
  (∀ r, st.live = some r → normState r = r) ∧
  ∀ ev ∈ st.events, normState ev.state_before = ev.state_before

/-- The accepted-path shape of one score request. -/
theorem scoreAction_accepted (st : Store) (row : MatchState) (tm : Team)
    (now : String) (hrow : getActiveMatch st = some row) :
    scoreAction st tm none now =
      (Except.ok
        { new_state := mergeRow row (applyScore (normState row) ⟨tm⟩ now).newState
          effects := (applyScore (normState row) ⟨tm⟩ now).effects
          idempotent := false },
       { live := some (mergeRow row (applyScore (normState row) ⟨tm⟩ now).newState)
         events := { event_id := none, state_before := normState row } :: st.events }) := by
  simp only [scoreAction, hrow]
  simp [normName]

/-- The merged row written back by an accepted score request is itself
well-formed, provided the row was and the clock string is non-empty. -/
theorem mergeRow_norm (row : MatchState) (tm : Team) (now : String)
    (hrow : normState row = row) (hnow : now ≠ "") :
    normState (mergeRow row (applyScore (normState row) ⟨tm⟩ now).newState) =
      mergeRow row (applyScore (normState row) ⟨tm⟩ now).newState := by
  obtain ⟨hv, hn1, hn2, hn3, hn4, hst, hco⟩ :=
    applyScore_fixed (normState row) ⟨tm⟩ now
  have e1 : normName row.team_a_player_1 = row.team_a_player_1 :=
    congrArg MatchState.team_a_player_1 hrow
  have e2 : normName row.team_a_player_2 = row.team_a_player_2 :=
    congrArg MatchState.team_a_player_2 hrow
  have e3 : normName row.team_b_player_1 = row.team_b_player_1 :=
    congrArg MatchState.team_b_player_1 hrow
  have e4 : normName row.team_b_player_2 = row.team_b_player_2 :=
    congrArg MatchState.team_b_player_2 hrow
  have e5 : normName row.started_at = row.started_at :=
    congrArg MatchState.started_at hrow
  have e6 : normName row.completed_at = row.completed_at :=
    congrArg MatchState.completed_at hrow
  have hsta :
      normName (applyScore (normState row) ⟨tm⟩ now).newState.started_at =
        (applyScore (normState row) ⟨tm⟩ now).newState.started_at := by
    rcases hst with h | h
    · rw [h]
      calc normName (normState row).started_at
          = normName (normName row.started_at) := rfl
        _ = normName row.started_at := normName_idem _
        _ = (normState row).started_at := rfl
    · rw [h]
      simp [normName, hnow]
  have hcoa :
      normName (applyScore (normState row) ⟨tm⟩ now).newState.completed_at =
        (applyScore (normState row) ⟨tm⟩ now).newState.completed_at := by
    rcases hco with h | h
    · rw [h]
      calc normName (normState row).completed_at
          = normName (normName row.completed_at) := rfl
        _ = normName row.completed_at := normName_idem _
        _ = (normState row).completed_at := rfl
    · rw [h]
      simp [normName, hnow]
  rw [hrow] at hsta hcoa ⊢
  simp only [normState, mergeRow, MatchState.mk.injEq]
  simp [e1, e2, e3, e4, hsta, hcoa]

theorem getActiveMatch_inv (st : Store) (r : MatchState)
    (h : getActiveMatch st = some r) :
    st.live = some r ∧ isActive r = true := by
  cases hl : st.live with
  | none => simp [getActiveMatch, hl] at h
  | some m =>
    simp only [getActiveMatch, hl] at h
    split_ifs at h with hm
    cases h
    exact ⟨rfl, hm⟩

theorem scoreAction_rejected (st : Store) (tm : Team) (k : Option String)
    (now : String) (h : getActiveMatch st = none) :
    scoreAction st tm k now = (Except.error ScoreError.no_active_match, st) := by
  simp [scoreAction, h]

theorem scoreAction_WF (st : Store) (tm : Team) (now : String)
    (hwf : StoreWF st) (hnow : now ≠ "") :
    StoreWF (scoreAction st tm none now).2 := by
  cases hga : getActiveMatch st with
  | none => rw [scoreAction_rejected st tm none now hga]; exact hwf
  | some row =>
    obtain ⟨hlive, hact⟩ := getActiveMatch_inv st row hga
    have hrow : normState row = row := hwf.1 row hlive
    rw [scoreAction_accepted st row tm now hga]
    constructor
    · intro r hr
      cases hr
      exact mergeRow_norm row tm now hrow hnow
    · intro ev hev
      rcases List.mem_cons.mp hev with h | h
      · subst h
        exact normState_idem row
      · exact hwf.2 ev h

theorem applyPoints_WF (evs : List Team) : ∀ st : Store, ∀ now : String,
    StoreWF st → now ≠ "" → StoreWF (applyPoints st evs now) := by
  induction evs with
  | nil => exact fun st now hwf _ => hwf
  | cons t ts ih =>
    intro st now hwf hnow
    exact ih (scoreAction st t none now).2 now (scoreAction_WF st t now hwf hnow) hnow

theorem applyPoints_events_length (evs : List Team) : ∀ st : Store, ∀ now : String,
    acceptedRun st evs now = true →
    (applyPoints st evs now).events.length = st.events.length + evs.length := by
  induction evs with
  | nil => intro st now _; rfl
  | cons t ts ih =>
    intro st now hacc
    simp only [acceptedRun, Bool.and_eq_true] at hacc
    obtain ⟨hsome, hrest⟩ := hacc
    obtain ⟨row, hga⟩ := Option.isSome_iff_exists.mp hsome
    have := ih (scoreAction st t none now).2 now hrest
    rw [scoreAction_accepted st row t now hga] at this
    simp only [applyPoints, List.foldl_cons] at this ⊢
    rw [scoreAction_accepted st row t now hga]
    simp only [this]
    simp
    omega

/-- A score request that leaves the match active is inverted exactly by one
undo call: the snapshot row is restored and the logged event removed. -/
theorem undo_after_score (st : Store) (row : MatchState) (tm : Team)
    (now : String) (hga : getActiveMatch st = some row)
    (hrow : normState row = row)
    (hact2 : storeActive (scoreAction st tm none now).2 = true) :
    undoAction (scoreAction st tm none now).2 = Except.ok st := by
  obtain ⟨hlive, _⟩ := getActiveMatch_inv st row hga
  rw [scoreAction_accepted st row tm now hga] at hact2 ⊢
  have hisa :
      isActive (mergeRow row (applyScore (normState row) ⟨tm⟩ now).newState) = true := by
    by_contra hfalse
    simp [storeActive, getActiveMatch, hfalse] at hact2
  rw [hrow] at hisa
  simp only [undoAction, getActiveMatch, hrow, normState_idem, hisa, if_true]
  rw [← hlive]

/-- A run of `n` accepted score requests on a well-formed store is undone by
`n` undo calls, provided the final state is still active. -/
theorem undoTimes_applyPoints (evs : List Team) : ∀ st : Store, ∀ now : String,
    StoreWF st → now ≠ "" →
    acceptedRun st evs now = true →
    storeActive (applyPoints st evs now) = true →
    undoTimes (applyPoints st evs now) evs.length = st := by
  induction evs with
  | nil => intro st now _ _ _ _; rfl
  | cons t ts ih =>
    intro st now hwf hnow hacc hfin
    simp only [acceptedRun, Bool.and_eq_true] at hacc
    obtain ⟨hsome, hrest⟩ := hacc
    obtain ⟨row, hga⟩ := Option.isSome_iff_exists.mp hsome
    obtain ⟨hlive, hact⟩ := getActiveMatch_inv st row hga
    have hrow : normState row = row := hwf.1 row hlive
    have hstep : applyPoints st (t :: ts) now =
        applyPoints (scoreAction st t none now).2 ts now := rfl
    have hwf' : StoreWF (scoreAction st t none now).2 :=
      scoreAction_WF st t now hwf hnow
    have hact2 : storeActive (scoreAction st t none now).2 = true := by
      cases ts with
      | nil => exact hfin
      | cons u us =>
        simp only [acceptedRun, Bool.and_eq_true] at hrest
        exact hrest.1
    rw [hstep, List.length_cons]
    have hmain :
        undoTimes (applyPoints (scoreAction st t none now).2 ts now) ts.length =
          (scoreAction st t none now).2 :=
      ih (scoreAction st t none now).2 now hwf' hnow hrest
        (by rw [← hstep]; exact hfin)
    show undoStep
        (undoTimes (applyPoints (scoreAction st t none now).2 ts now) ts.length) = st
    rw [hmain]
    simp only [undoStep, undo_after_score st row t now hga hrow hact2]

/-! ### C7 -/

/-- C7 (amended): starting from a fresh, active, well-formed match row with an
empty event log, after any run of accepted point requests that leaves the
match active: one undo call restores the live state to the snapshot logged
before the most recent event (every field, including the snapshot's version)
and deletes exactly that log entry; undoing once per event restores exactly
the initial store; and undo on the empty log fails with `nothing_to_undo`
and changes nothing. -/
theorem undo_restores_run (row : MatchState) (evs : List Team) (now : String)
    (hrow : normState row = row) (hact : isActive row = true) (hnow : now ≠ "")
    (hacc : acceptedRun { live := some row, events := [] } evs now = true)
    (hfin : storeActive (applyPoints { live := some row, events := [] } evs now) = true) :
    (evs ≠ [] → ∃ e rest,
        (applyPoints { live := some row, events := [] } evs now).events = e :: rest ∧
        undoAction (applyPoints { live := some row, events := [] } evs now) =
          Except.ok { live := some e.state_before, events := rest }) ∧
    undoTimes (applyPoints { live := some row, events := [] } evs now) evs.length =
      { live := some row, events := [] } ∧
    undoAction ({ live := some row, events := [] } : Store) =
      Except.error UndoError.nothing_to_undo ∧
    undoStep ({ live := some row, events := [] } : Store) =
      { live := some row, events := [] } := by
  have hwf : StoreWF { live := some row, events := [] } := by
    constructor
    · intro r hr
      cases hr
      exact hrow
    · intro ev hev
      exact absurd hev (List.not_mem_nil ev)
  refine ⟨?_, undoTimes_applyPoints evs _ now hwf hnow hacc hfin, ?_, ?_⟩
  · intro hne
    obtain ⟨m, hm⟩ := Option.isSome_iff_exists.mp hfin
    have hlen := applyPoints_events_length evs { live := some row, events := [] } now hacc
    cases hev : (applyPoints { live := some row, events := [] } evs now).events with
    | nil =>
      rw [hev] at hlen
      cases evs with
      | nil => exact absurd rfl hne
      | cons u us => simp at hlen
    | cons e rest =>
      refine ⟨e, rest, rfl, ?_⟩
      have hwf' := applyPoints_WF evs { live := some row, events := [] } now hwf hnow
      have hsnap : normState e.state_before = e.state_before := by
        refine hwf'.2 e ?_
        rw [hev]
        exact List.mem_cons_self e rest
      simp only [undoAction]
      rw [hm]
      dsimp only
      rw [hev]
      dsimp only
      rw [hsnap]
  · simp [undoAction, getActiveMatch, hact]
  · simp [undoStep, undoAction, getActiveMatch, hact]

/-- Match point in a one-set match: the next point by team a completes the
match. -/
def matchPointState : MatchState :=
  { baseState with
    team_a_games := 5
    team_a_points := 3 }

/-- Counterexample to C7 as stated: the point that completes the match is
accepted and logged, yet the subsequent undo call fails with
`no_active_match` (the lookup filters on active statuses), so the snapshot
is not restored and the log entry is not deleted. -/
theorem undo_after_completion_cex :
    acceptedRun { live := some matchPointState, events := [] } [Team.a] "t1" = true ∧
    ((scoreAction { live := some matchPointState, events := [] } Team.a none "t1").2).events.length = 1 ∧
    undoAction (scoreAction { live := some matchPointState, events := [] } Team.a none "t1").2 =
      Except.error UndoError.no_active_match ∧
    undoTimes (scoreAction { live := some matchPointState, events := [] } Team.a none "t1").2 1 ≠
      { live := some matchPointState, events := [] } :=
  ⟨by decide, by decide, by rfl, by decide⟩

/-- Witness for C7 at a concrete run: one point from the fresh base state,
inverted by one undo. -/
theorem undo_restores_run_witness :
    (normState baseState = baseState ∧ isActive baseState = true ∧
      ("t1" : String) ≠ "" ∧
      acceptedRun { live := some baseState, events := [] } [Team.a] "t1" = true ∧
      storeActive (applyPoints { live := some baseState, events := [] } [Team.a] "t1") = true) ∧
    (([Team.a] : List Team) ≠ [] → ∃ e rest,
        (applyPoints { live := some baseState, events := [] } [Team.a] "t1").events = e :: rest ∧
        undoAction (applyPoints { live := some baseState, events := [] } [Team.a] "t1") =
          Except.ok { live := some e.state_before, events := rest }) ∧
    undoTimes (applyPoints { live := some baseState, events := [] } [Team.a] "t1")
        ([Team.a] : List Team).length = { live := some baseState, events := [] } ∧
    undoAction ({ live := some baseState, events := [] } : Store) =
      Except.error UndoError.nothing_to_undo ∧
    undoStep ({ live := some baseState, events := [] } : Store) =
      { live := some baseState, events := [] } :=
  ⟨⟨by decide, by decide, by decide, by decide, by decide⟩,
    undo_restores_run baseState [Team.a] "t1" (by decide) (by decide) (by decide)
      (by decide) (by decide)⟩

/-- The accepted-path shape of one score request carrying a fresh
idempotency key. -/
theorem scoreAction_accepted_key (st : Store) (row : MatchState) (tm : Team)
    (k : String) (now : String) (hga : getActiveMatch st = some row)
    (hk : k ≠ "")
    (hfresh : st.events.any (fun e => e.event_id = some k) = false) :
    scoreAction st tm (some k) now =
      (Except.ok
        { new_state := mergeRow row (applyScore (normState row) ⟨tm⟩ now).newState
          effects := (applyScore (normState row) ⟨tm⟩ now).effects
          idempotent := false },
       { live := some (mergeRow row (applyScore (normState row) ⟨tm⟩ now).newState)
         events := { event_id := some k, state_before := normState row } :: st.events }) := by
  simp only [scoreAction, hga]
  simp [hfresh, hk, normName]

/-! ### C8 -/

/-- C8 (amended): with an active match and a truthy (non-empty) idempotency
key — the empty string is falsy in JS, is never recorded (`event_id || null`)
and never dedupes (`if (event_id)`) — a point request whose key is already
recorded returns the current row unchanged, flagged idempotent, with empty
effects and no engine application, and writes nothing; and a fresh-key
request resubmitted once, provided the first application left the match
active, returns the same new state both times (the second flagged idempotent
with empty effects), leaves the store unchanged on the second call, and
increments the version exactly once. -/
theorem idempotent_resubmission (st : Store) (row : MatchState) (tm : Team)
    (k : String) (now : String)
    (hga : getActiveMatch st = some row) (hk : k ≠ "") :
    (st.events.any (fun e => e.event_id = some k) = true →
      scoreAction st tm (some k) now =
        (Except.ok { new_state := row, effects := [], idempotent := true }, st)) ∧
    (st.events.any (fun e => e.event_id = some k) = false →
      storeActive (scoreAction st tm (some k) now).2 = true →
      (scoreAction st tm (some k) now).1 =
        Except.ok
          { new_state := mergeRow row (applyScore (normState row) ⟨tm⟩ now).newState
            effects := (applyScore (normState row) ⟨tm⟩ now).effects
            idempotent := false } ∧
      scoreAction (scoreAction st tm (some k) now).2 tm (some k) now =
        (Except.ok
          { new_state := mergeRow row (applyScore (normState row) ⟨tm⟩ now).newState
            effects := []
            idempotent := true },
         (scoreAction st tm (some k) now).2) ∧
      (mergeRow row (applyScore (normState row) ⟨tm⟩ now).newState).version =
        row.version + 1) := by
  constructor
  · intro hdup
    simp only [scoreAction, hga]
    simp [hdup, hk]
  · intro hfresh hact2
    rw [scoreAction_accepted_key st row tm k now hga hk hfresh] at hact2 ⊢
    refine ⟨rfl, ?_, ?_⟩
    · have hisa : isActive
          (mergeRow row (applyScore (normState row) ⟨tm⟩ now).newState) = true := by
        by_contra hfalse
        simp [storeActive, getActiveMatch, hfalse] at hact2
      have hga2 : getActiveMatch
          ({ live := some (mergeRow row (applyScore (normState row) ⟨tm⟩ now).newState)
             events := { event_id := some k, state_before := normState row } :: st.events } :
            Store) =
          some (mergeRow row (applyScore (normState row) ⟨tm⟩ now).newState) := by
        simp [getActiveMatch, hisa]
      simp only [scoreAction, hga2]
      simp [List.any_cons, hk]
    · have hv := (applyScore_fixed (normState row) ⟨tm⟩ now).1
      simp only [mergeRow]
      rw [hv]
      rfl

/-- Counterexample to C8 as stated, in two parts. First, when the first keyed
submission completes the match, resubmitting the same key returns
`no_active_match` rather than the same state, because the idempotency check
runs only after the active-status lookup. Second, the empty-string key is
falsy in JS (`if (event_id)`) and stored as null (`event_id || null`), so it
is never recorded and never dedupes: resubmitting it applies a second point,
logs a second event and bumps the version twice. -/
theorem idempotent_resubmission_cex :
    (scoreAction { live := some matchPointState, events := [] } Team.a (some "k1") "t1").1 =
      Except.ok
        { new_state := mergeRow matchPointState
            (applyScore (normState matchPointState) ⟨Team.a⟩ "t1").newState
          effects := (applyScore (normState matchPointState) ⟨Team.a⟩ "t1").effects
          idempotent := false } ∧
    (scoreAction { live := some matchPointState, events := [] } Team.a (some "k1") "t1").2.events.length = 1 ∧
    scoreAction (scoreAction { live := some matchPointState, events := [] } Team.a (some "k1") "t1").2
        Team.a (some "k1") "t1" =
      (Except.error ScoreError.no_active_match,
       (scoreAction { live := some matchPointState, events := [] } Team.a (some "k1") "t1").2) ∧
    ((scoreAction (scoreAction { live := some baseState, events := [] } Team.a (some "") "t1").2
        Team.a (some "") "t1").2.events.length = 2 ∧
     (scoreAction (scoreAction { live := some baseState, events := [] } Team.a (some "") "t1").2
        Team.a (some "") "t1").2.live.map MatchState.version =
       some (baseState.version + 2) ∧
     (scoreAction (scoreAction { live := some baseState, events := [] } Team.a (some "") "t1").2
        Team.a (some "") "t1").2 ≠
       (scoreAction { live := some baseState, events := [] } Team.a (some "") "t1").2) :=
  ⟨by rfl, by decide, by rfl, by decide, by decide, by decide⟩

/-- Witness for C8 at a concrete fresh-key resubmission from the base state. -/
theorem idempotent_resubmission_witness :
    getActiveMatch { live := some baseState, events := [] } = some baseState ∧
    ("k1" : String) ≠ "" ∧
    ((({ live := some baseState, events := [] } : Store).events.any
        (fun e => e.event_id = some "k1") = true →
      scoreAction { live := some baseState, events := [] } Team.a (some "k1") "t1" =
        (Except.ok { new_state := baseState, effects := [], idempotent := true },
         { live := some baseState, events := [] })) ∧
    (({ live := some baseState, events := [] } : Store).events.any
        (fun e => e.event_id = some "k1") = false →
      storeActive (scoreAction { live := some baseState, events := [] } Team.a (some "k1") "t1").2 = true →
      (scoreAction { live := some baseState, events := [] } Team.a (some "k1") "t1").1 =
        Except.ok
          { new_state := mergeRow baseState (applyScore (normState baseState) ⟨Team.a⟩ "t1").newState
            effects := (applyScore (normState baseState) ⟨Team.a⟩ "t1").effects
            idempotent := false } ∧
      scoreAction (scoreAction { live := some baseState, events := [] } Team.a (some "k1") "t1").2
          Team.a (some "k1") "t1" =
        (Except.ok
          { new_state := mergeRow baseState (applyScore (normState baseState) ⟨Team.a⟩ "t1").newState
            effects := []
            idempotent := true },
         (scoreAction { live := some baseState, events := [] } Team.a (some "k1") "t1").2) ∧
      (mergeRow baseState (applyScore (normState baseState) ⟨Team.a⟩ "t1").newState).version =
        baseState.version + 1)) :=
  ⟨by decide, by decide,
    idempotent_resubmission { live := some baseState, events := [] } baseState Team.a "k1" "t1"
      (by decide) (by decide)⟩

/-! ### C10 -/

/-- Invariant on the current-game point counters: a tiebreak state carries
0–0, and a non-tiebreak state with a counter at 4 or beyond is at advantage
or deuce (both counters at least 3, difference at most 1). -/
def pointsInv (s : MatchState) : Prop :=
  (s.is_tiebreak = true → s.team_a_points = 0 ∧ s.team_b_points = 0) ∧
  (s.is_tiebreak = false →
    (4 ≤ s.team_a_points ∨ 4 ≤ s.team_b_points) →
    3 ≤ s.team_a_points ∧ 3 ≤ s.team_b_points ∧
    s.team_a_points ≤ s.team_b_points + 1 ∧ s.team_b_points ≤ s.team_a_points + 1)

theorem pointsInv_zero (s : MatchState) (ha : s.team_a_points = 0)
    (hb : s.team_b_points = 0) : pointsInv s := by
  refine ⟨fun _ => ⟨ha, hb⟩, fun _ h => ?_⟩
  rw [ha, hb] at h
  omega

theorem scoreGamePoint_pointsInv (s : MatchState) (t : Team) (fx : List Effect)
    (now : String) (hinv : pointsInv s) (htb : s.is_tiebreak = false) :
    pointsInv (scoreGamePoint s t fx now).newState := by
  have hJ := hinv.2 htb
  cases t
  all_goals (
    simp only [scoreGamePoint]
    split
    case _ gw heq =>
      exact pointsInv_zero _ (handleGameWon_points_zero _ _ _ _).1
        (handleGameWon_points_zero _ _ _ _).2
    case _ heq =>
      simp only [checkGameWinner] at heq
      split_ifs at heq with h1 h2 h3 h4
      split
      all_goals (
        refine ⟨fun htb2 => absurd htb2 (by simp [htb]), fun _ hge => ?_⟩
        (try dsimp only at hge ⊢)
        omega))

theorem updateTiebreakServer_fields (s : MatchState) :
    (updateTiebreakServer s).team_a_points = s.team_a_points ∧
    (updateTiebreakServer s).team_b_points = s.team_b_points ∧
    (updateTiebreakServer s).is_tiebreak = s.is_tiebreak := by
  obtain ⟨t, h⟩ := updateTiebreakServer_shape s
  rw [h]
  exact ⟨rfl, rfl, rfl⟩

theorem scoreTiebreakPoint_pointsInv (s : MatchState) (t : Team)
    (fx : List Effect) (now : String) (htb : s.is_tiebreak = true)
    (ha : s.team_a_points = 0) (hb : s.team_b_points = 0) :
    pointsInv (scoreTiebreakPoint s t fx now).newState := by
  simp only [scoreTiebreakPoint]
  split
  case _ w heq =>
    cases w
    all_goals (
      dsimp only
      apply pointsInv_zero
      · exact (handleSetWon_points_zero _ _ _ _ (by simp [ha]) (by simp [hb])).1
      · exact (handleSetWon_points_zero _ _ _ _ (by simp [ha]) (by simp [hb])).2)
  case _ heq =>
    dsimp only
    obtain ⟨hpa, hpb, hti⟩ := updateTiebreakServer_fields _
    refine ⟨fun _ => ⟨?_, ?_⟩, fun hf _ => ?_⟩
    · rw [hpa]; exact ha
    · rw [hpb]; exact hb
    · rw [hti] at hf
      have hf' : s.is_tiebreak = false := hf
      simp [htb] at hf'

theorem applyScore_pointsInv (s : MatchState) (e : ScoreEvent) (now : String)
    (hinv : pointsInv s) : pointsInv (applyScore s e now).newState := by
  by_cases hterm : s.status = MatchStatus.completed ∨ s.status = MatchStatus.abandoned
  · unfold applyScore
    rw [if_pos hterm]
    exact hinv
  · cases htb : s.is_tiebreak
    · rw [applyScore_game_reduce s e now hterm htb]
      refine scoreGamePoint_pointsInv _ _ _ _ ?_ ?_
      · split
        · exact hinv
        · exact hinv
      · split
        · exact htb
        · exact htb
    · rw [applyScore_tiebreak_reduce s e now hterm htb]
      obtain ⟨ha, hb⟩ := hinv.1 htb
      refine scoreTiebreakPoint_pointsInv _ _ _ _ ?_ ?_ ?_
      · split
        · exact htb
        · exact htb
      · split
        · exact ha
        · exact ha
      · split
        · exact hb
        · exact hb

theorem reachable_pointsInv (s : MatchState) (h : Reachable s) : pointsInv s := by
  induction h with
  | init config randomServer => exact pointsInv_zero _ rfl rfl
  | step s e now _ ih => exact applyScore_pointsInv s e now ih

/-- Reachability is preserved by folding a list of point events through the
engine. -/
theorem reachable_foldl (l : List Team) (s : MatchState) (now : String)
    (h : Reachable s) :
    Reachable (l.foldl (fun st t => (applyScore st ⟨t⟩ now).newState) s) := by
  induction l generalizing s with
  | nil => exact h
  | cons t ts ih => exact ih _ (Reachable.step s ⟨t⟩ now h)

/-- C10: in every state reachable from `createMatchState` by repeated
`applyScore` in which no tiebreak is active, a current-game point counter at
4 or more forces both counters to be at least 3 with difference at most 1,
so the score falls under the 0/15/30/40, deuce, or one-point-advantage
display cases. -/
theorem reachable_game_points_bounded (s : MatchState) (h : Reachable s)
    (htb : s.is_tiebreak = false)
    (h4 : 4 ≤ s.team_a_points ∨ 4 ≤ s.team_b_points) :
    3 ≤ s.team_a_points ∧ 3 ≤ s.team_b_points ∧
    s.team_a_points ≤ s.team_b_points + 1 ∧
    s.team_b_points ≤ s.team_a_points + 1 :=
  (reachable_pointsInv s h).2 htb h4

/-- Traditional-deuce configuration used to exhibit a reachable advantage
score. -/
def tradConfig : MatchConfig :=
  { id := "m1"
    court_id := "c1"
    game_mode := some GameMode.traditional
    sets_to_win := some 1
    tiebreak_at := some 6
    serving_team := some Team.a
    team_a_player_1 := none
    team_a_player_2 := none
    team_b_player_1 := none
    team_b_player_2 := none }

/-- Seven points from a fresh traditional match: 40–40 then advantage, i.e.
counters 4–3. -/
def reachedState : MatchState :=
  List.foldl (fun st t => (applyScore st ⟨t⟩ "t1").newState)
    (createMatchState tradConfig Team.a)
    [Team.a, Team.a, Team.a, Team.b, Team.b, Team.b, Team.a]

/-- Witness for C10 at the concrete reachable advantage state. -/
theorem reachable_game_points_bounded_witness :
    Reachable reachedState ∧ reachedState.is_tiebreak = false ∧
    (4 ≤ reachedState.team_a_points ∨ 4 ≤ reachedState.team_b_points) ∧
    (3 ≤ reachedState.team_a_points ∧ 3 ≤ reachedState.team_b_points ∧
     reachedState.team_a_points ≤ reachedState.team_b_points + 1 ∧
     reachedState.team_b_points ≤ reachedState.team_a_points + 1) :=
  ⟨reachable_foldl _ _ _ (Reachable.init tradConfig Team.a), by decide, by decide,
    reachable_game_points_bounded reachedState
      (reachable_foldl _ _ _ (Reachable.init tradConfig Team.a))
      (by decide) (by decide)⟩
